import Mathlib

/-!
Verification development for the CDT (complex data type) integrity engine of
the aerospike-tools-validation repository.

The byte-level msgpack cursor (`msgpack_in.c`) is not part of the sources
under verification; following the specification it is modelled at the level
of semantic tokens: a buffer is a list of tokens, a container header is one
token followed by its child values, and offsets count tokens.  All functions
of `src/backup.c` and the restore write loop of `src/restore.c` that the
claims mention are translated directly from the C sources on top of this
cursor model.
-/

set_option maxRecDepth 10000

/-- Modelled from the spec: the element types a conforming storage layer can
produce (spec section 3, "Element Type").  `listHdrTrunc`/`mapHdrTrunc`
represent a list/map header byte whose element count cannot be decoded
(a truncated header): it peeks as a list/map but every parse of it fails.
`wildcard` and `infinity` are the two non-storage sentinels; `badTag` is an
unrecognized tag, which `skip` crosses while setting the non-storage flag. -/
inductive Token where
  | nil
  | bool (b : Bool)
  | negint (n : Nat)
  | int (n : Nat)
  | str (s : List Nat)
  | bytes (d : List Nat)
  | ext (ty : Nat) (sz : Nat)
  | wildcard
  | infinity
  | badTag
  | listHdr (n : Nat)
  | mapHdr (n : Nat)
  | listHdrTrunc
  | mapHdrTrunc
deriving Repr, DecidableEq

/-- Number of child values following a container header token. -/
def Token.childCount : Token → Nat
  | .listHdr n => n
  | .mapHdr n => 2 * n
  | _ => 0

/-- Modelled from the spec: a token is a non-storage marker if it is one of
the wildcard/infinity sentinels or an unrecognized tag. -/
def Token.isNonstorage : Token → Bool
  | .wildcard => true
  | .infinity => true
  | .badTag => true
  | _ => false

/-- Headers whose element count cannot be decoded. -/
def Token.isTrunc : Token → Bool
  | .listHdrTrunc => true
  | .mapHdrTrunc => true
  | _ => false

/-- Modelled from the spec: walk past `k` consecutive values of a token
stream.  Returns the number of tokens consumed and whether a non-storage
marker was crossed; `none` when the buffer ends mid-value or a header is
undecodable.  The fuel argument only bounds the recursion; any fuel above
the list length is sufficient, because every recursive call strictly
shrinks the list. -/
def skipValsF : Nat → List Token → Nat → Option (Nat × Bool)
  | _, _, 0 => some (0, false)
  | 0, _, _ + 1 => none
  | _ + 1, [], _ + 1 => none
  | f + 1, t :: rest, k + 1 =>
    if t.isTrunc then none
    else
      match skipValsF f rest t.childCount with
      | none => none
      | some (c1, ns1) =>
        match skipValsF f (rest.drop c1) k with
        | none => none
        | some (c2, ns2) =>
          some (1 + c1 + c2, t.isNonstorage || ns1 || ns2)

/-- Walk past `k` consecutive values of a token stream. -/
def skipVals (toks : List Token) (k : Nat) : Option (Nat × Bool) :=
  skipValsF (toks.length + 1) toks k

/-- Comparison verdicts of the structural comparator. -/
inductive CmpRes where
  | less
  | equal
  | greater
  | unorderable
  | error
deriving Repr, DecidableEq

/-- Three-way comparison of naturals. -/
def cmpNat (a b : Nat) : CmpRes :=
  if a < b then .less else if b < a then .greater else .equal

/-- Lexicographic comparison of byte lists. -/
def cmpLex : List Nat → List Nat → CmpRes
  | [], [] => .equal
  | [], _ :: _ => .less
  | _ :: _, [] => .greater
  | x :: xs, y :: ys =>
    match cmpNat x y with
    | .equal => cmpLex xs ys
    | r => r

/-- Fixed type precedence of the canonical sort order (spec section 4.1);
negative integers sort below non-negative ones, then strings, containers,
blobs. -/
def Token.rank : Token → Nat
  | .nil => 0
  | .bool _ => 1
  | .negint _ => 2
  | .int _ => 3
  | .str _ => 4
  | .listHdr _ => 5
  | .listHdrTrunc => 5
  | .mapHdr _ => 6
  | .mapHdrTrunc => 6
  | .bytes _ => 7
  | .ext _ _ => 8
  | .wildcard => 9
  | .infinity => 10
  | .badTag => 11

/-- Tokens that participate in the canonical order; the sentinels,
unrecognized tags and extension markers are unorderable (spec:
"unorderable types return Unorderable"). -/
def Token.orderable : Token → Bool
  | .wildcard => false
  | .infinity => false
  | .badTag => false
  | .ext _ _ => false
  | _ => true

/-- Compare the scalar payloads of two same-rank scalar tokens. -/
def cmpScalar : Token → Token → CmpRes
  | .nil, .nil => .equal
  | .bool a, .bool b => cmpNat (cond a 1 0) (cond b 1 0)
  | .negint a, .negint b => cmpNat b a
  | .int a, .int b => cmpNat a b
  | .str a, .str b => cmpLex a b
  | .bytes a, .bytes b => cmpLex a b
  | _, _ => .error

/-- Compare `k` consecutive values of two streams with a given one-value
comparator, accumulating consumed token counts while verdicts are Equal. -/
def cmpManyWith (g : List Token → List Token → CmpRes × Nat × Nat) :
    Nat → List Token → List Token → CmpRes × Nat × Nat
  | 0, _, _ => (.equal, 0, 0)
  | k + 1, xs, ys =>
    let r := g xs ys
    match r.1 with
    | .equal =>
      let rest := cmpManyWith g k (xs.drop r.2.1) (ys.drop r.2.2)
      (rest.1, r.2.1 + rest.2.1, r.2.2 + rest.2.2)
    | v => (v, r.2.1, r.2.2)

/-- Modelled from the spec: compare the next value of each stream by the
canonical type-then-value order, recursively for containers, returning the
verdict and the token counts consumed on each side.  The fuel only bounds
the container nesting depth; any fuel above the combined lengths is
sufficient. -/
def cmpOneF : Nat → List Token → List Token → CmpRes × Nat × Nat
  | 0, _, _ => (.error, 0, 0)
  | f + 1, t1 :: r1, t2 :: r2 =>
    if t1.isTrunc || t2.isTrunc then (.error, 0, 0)
    else if t1.orderable = false || t2.orderable = false then (.unorderable, 0, 0)
    else if t1.rank ≠ t2.rank then (cmpNat t1.rank t2.rank, 0, 0)
    else
      match t1, t2 with
      | .listHdr n1, .listHdr n2 =>
        let r := cmpManyWith (fun xs ys => cmpOneF f xs ys) (min n1 n2) r1 r2
        match r.1 with
        | .equal => (cmpNat n1 n2, 1 + r.2.1, 1 + r.2.2)
        | v => (v, 1 + r.2.1, 1 + r.2.2)
      | .mapHdr n1, .mapHdr n2 =>
        let r := cmpManyWith (fun xs ys => cmpOneF f xs ys) (min (2 * n1) (2 * n2)) r1 r2
        match r.1 with
        | .equal => (cmpNat n1 n2, 1 + r.2.1, 1 + r.2.2)
        | v => (v, 1 + r.2.1, 1 + r.2.2)
      | a, b => (cmpScalar a b, 1, 1)
  | _ + 1, _, _ => (.error, 0, 0)

/-- The structural comparator's verdict on the first value of each stream. -/
def cmpHead (xs ys : List Token) : CmpRes :=
  (cmpOneF (xs.length + ys.length + 2) xs ys).1

/-- Cursor over a token buffer: `msgpack_in`, modelled from the spec's
Binary Cursor (buffer, offset, non-storage flag). -/
structure MsgpackIn where
  buf : List Token
  offset : Nat
  hasNonstorage : Bool
deriving Repr, DecidableEq

/-- The unconsumed part of the buffer. -/
def MsgpackIn.rem (mp : MsgpackIn) : List Token :=
  mp.buf.drop mp.offset

/-- The tokens between two offsets of the cursor's buffer. -/
def MsgpackIn.slice (mp : MsgpackIn) (a b : Nat) : List Token :=
  (mp.buf.drop a).take (b - a)

/-- Modelled from the spec: `skipN` - advance past `k` whole values,
returning the advanced cursor and the number of tokens consumed (`0` means
failure to the callers, exactly as a zero byte count does in C).  On failure
the cursor is unchanged; on success the non-storage flag accumulates. -/
def msgpack_sz_rep (mp : MsgpackIn) (k : Nat) : MsgpackIn × Nat :=
  match skipVals mp.rem k with
  | none => (mp, 0)
  | some (c, ns) =>
    ({ mp with offset := mp.offset + c, hasNonstorage := mp.hasNonstorage || ns }, c)

/-- Skip one value. -/
def msgpack_sz (mp : MsgpackIn) : MsgpackIn × Nat :=
  msgpack_sz_rep mp 1

/-- Modelled from the spec: compare the next unconsumed value at each cursor,
advancing both past the compared value. -/
def msgpack_cmp (l r : MsgpackIn) : MsgpackIn × MsgpackIn × CmpRes :=
  match skipVals l.rem 1, skipVals r.rem 1 with
  | some (c1, ns1), some (c2, ns2) =>
    ({ l with offset := l.offset + c1, hasNonstorage := l.hasNonstorage || ns1 },
     { r with offset := r.offset + c2, hasNonstorage := r.hasNonstorage || ns2 },
     cmpHead l.rem r.rem)
  | _, _ => (l, r, .error)

/-- Semantic element types as peeked by the cursor. -/
inductive MType where
  | nil
  | bool
  | negint
  | int
  | string
  | bytes
  | list
  | map
  | ext
  | error
deriving Repr, DecidableEq

/-- Peek the type of the first value of a buffer (`msgpack_buf_peek_type`). -/
def msgpack_buf_peek_type : List Token → MType
  | [] => .error
  | t :: _ =>
    match t with
    | .nil => .nil
    | .bool _ => .bool
    | .negint _ => .negint
    | .int _ => .int
    | .str _ => .string
    | .bytes _ => .bytes
    | .listHdr _ => .list
    | .mapHdr _ => .map
    | .listHdrTrunc => .list
    | .mapHdrTrunc => .map
    | .ext _ _ => .ext
    | _ => .error

/-- `msgpack_get_list_ele_count`: decode a list header, advancing past it. -/
def msgpack_get_list_ele_count (mp : MsgpackIn) : Option (MsgpackIn × Nat) :=
  match mp.rem with
  | .listHdr n :: _ => some ({ mp with offset := mp.offset + 1 }, n)
  | _ => none

/-- `msgpack_get_map_ele_count`: decode a map header (count in pairs). -/
def msgpack_get_map_ele_count (mp : MsgpackIn) : Option (MsgpackIn × Nat) :=
  match mp.rem with
  | .mapHdr n :: _ => some ({ mp with offset := mp.offset + 1 }, n)
  | _ => none

/-- `msgpack_peek_is_ext`: is the next value an extension header? -/
def msgpack_peek_is_ext (mp : MsgpackIn) : Bool :=
  match mp.rem with
  | .ext _ _ :: _ => true
  | _ => false

/-- `msgpack_get_ext`: consume an extension header. -/
def msgpack_get_ext (mp : MsgpackIn) : Option (MsgpackIn × Nat × Nat) :=
  match mp.rem with
  | .ext t s :: _ => some ({ mp with offset := mp.offset + 1 }, t, s)
  | _ => none

/-- The `as_bytes` subtype tag marking an opaque blob value. -/
def AS_BYTES_BLOB : Nat := 4








/-- `cdt_fix` of `src/src/backup.c` (line 284): the per-bin classification
result.  The C `contents` pointer is represented as an offset into the bin's
buffer. -/
structure CdtFix where
  contents : Nat
  content_sz : Nat
  ele_count : Nat
  nf_padding : Nat
  nf_list_order : Bool
  nf_map_order : Bool
  nf_map_dupkey : Bool
  need_log : Bool
deriving Repr, DecidableEq

/-- The zero-initialized `cdt_fix cf = { NULL }` of `cdt_check`. -/
def cdtFix0 : CdtFix :=
  ⟨0, 0, 0, 0, false, false, false, false⟩

/-- `cdt_stats` of `src/include/backup.h` (line 58). -/
structure CdtStats where
  count : Nat
  fixed : Nat
  need_fix : Nat
  nf_failed : Nat
  nf_order : Nat
  nf_padding : Nat
  cannot_fix : Nat
  cf_dupkey : Nat
  cf_nonstorage : Nat
  cf_corrupt : Nat
  cf_invalidkey : Nat
deriving Repr, DecidableEq

/-- All-zero statistics. -/
def cdtStats0 : CdtStats :=
  ⟨0, 0, 0, 0, 0, 0, 0, 0, 0, 0, 0⟩

/-- `map_is_key` of `src/src/backup.c` (line 298): a value usable as a map
key peeks as an integer, a string, or a blob-subtyped byte value. -/
def map_is_key (toks : List Token) : Bool :=
  match toks with
  | .negint _ :: _ => true
  | .int _ :: _ => true
  | .str _ :: _ => true
  | .bytes d :: _ =>
    match d with
    | [] => false
    | b :: _ => b == AS_BYTES_BLOB
  | _ => false

/-- Iterate a partial token-stream transformer `k` times. -/
def iterOpt (g : List Token → Option (List Token)) :
    Nat → List Token → Option (List Token)
  | 0, toks => some toks
  | k + 1, toks =>
    match g toks with
    | none => none
    | some r => iterOpt g k r

/-- One map-entry step of `check_map_keys_internal`: shallow key check, then
recursive validation of key and value. -/
def ckmiMapStep (g : List Token → Option (List Token)) (toks : List Token) :
    Option (List Token) :=
  if map_is_key toks then
    match g toks with
    | none => none
    | some r => g r
  else none

/-- `check_map_keys_internal` of `src/src/backup.c` (line 330), fuelled:
consume one value, recursively validating the keys of every nested map; the
shallow parses of the C (`msgpack_parse`) consume exactly one token here.
Any fuel above the list length is sufficient. -/
def ckmiF : Nat → List Token → Option (List Token)
  | 0, _ => none
  | f + 1, toks =>
    match toks with
    | [] => none
    | t :: rest =>
      match t with
      | .listHdrTrunc => none
      | .mapHdrTrunc => none
      | .listHdr n =>
        if n = 0 then some rest
        else
          match rest with
          | .ext _ _ :: rest2 => iterOpt (ckmiF f) (n - 1) rest2
          | _ => iterOpt (ckmiF f) n rest
      | .mapHdr n =>
        if n = 0 then some rest
        else
          match rest with
          | .ext _ _ :: rest2 =>
            match rest2 with
            | [] => none
            | .listHdrTrunc :: _ => none
            | .mapHdrTrunc :: _ => none
            | _ :: rest3 => iterOpt (ckmiMapStep (ckmiF f)) (n - 1) rest3
          | _ => iterOpt (ckmiMapStep (ckmiF f)) n rest
      | _ => some rest

/-- `check_map_keys_internal` with sufficient fuel. -/
def check_map_keys_internal (toks : List Token) : Option (List Token) :=
  ckmiF (toks.length + 1) toks

/-- `cdt_check_set_cannotfix` of `src/src/backup.c` (line 474). -/
def cdt_check_set_cannotfix (mp : MsgpackIn) (cf : CdtFix) (st : CdtStats) :
    CdtFix × CdtStats :=
  ({ cf with need_log := true },
   if mp.hasNonstorage then
     { st with cannot_fix := st.cannot_fix + 1, cf_nonstorage := st.cf_nonstorage + 1 }
   else
     { st with cannot_fix := st.cannot_fix + 1, cf_corrupt := st.cf_corrupt + 1 })

/-- `cdt_check_sz` of `src/src/backup.c` (line 489): compare the cursor's
final offset with the bin's declared size; returns true when a padding fix
is needed. -/
def cdt_check_sz (mp : MsgpackIn) (sz : Nat) (cf : CdtFix) (st : CdtStats) :
    Bool × CdtFix × CdtStats :=
  if mp.offset < sz then
    (true,
     { cf with need_log := true, nf_padding := sz - mp.offset },
     { st with need_fix := st.need_fix + 1, nf_padding := st.nf_padding + 1 })
  else if mp.offset > sz then
    (false, cf,
     { st with cannot_fix := st.cannot_fix + 1, cf_corrupt := st.cf_corrupt + 1 })
  else
    (false, cf, st)

/-- Inner loop of `cdt_map_dup_key_check` (line 530): repeatedly re-anchor
the left cursor at `curOff` and compare its key with the right cursor's
next key. -/
def dupInner : MsgpackIn → Nat → MsgpackIn → Nat → Bool × MsgpackIn
  | mp, _, _, 0 => (false, mp)
  | mp, curOff, rhs, j + 1 =>
    let mp1 := { mp with offset := curOff }
    let t := msgpack_cmp mp1 rhs
    if t.2.2 = CmpRes.equal then (true, t.1)
    else dupInner t.1 curOff (msgpack_sz t.2.1).1 j

/-- Outer loop of `cdt_map_dup_key_check` (line 522), counting down the
remaining outer iterations; the inner comparison count equals the remaining
count, exactly as `j` running from `i` to `ele_count - 1` does in C. -/
def dupOuter : MsgpackIn → Nat → Bool
  | _, 0 => false
  | mp, r + 1 =>
    let curOff := mp.offset
    let mp1 := (msgpack_sz_rep mp 2).1
    let nextOff := mp1.offset
    let inner := dupInner mp1 curOff mp1 (r + 1)
    if inner.1 then true
    else dupOuter { inner.2 with offset := nextOff } r

/-- `cdt_map_dup_key_check` of `src/src/backup.c` (line 508): O(n^2)
pairwise duplicate-key scan over the serialized map entries. -/
def cdt_map_dup_key_check (ele_count : Nat) (contents : List Token) : Bool :=
  if ele_count ≤ 1 then false
  else dupOuter ⟨contents, 0, false⟩ (ele_count - 1)

/-- Early-return-or-continue outcome of a scan phase of the classifiers. -/
inductive ScanRes where
  | exit (ret : Bool) (cf : CdtFix) (st : CdtStats)
  | ok (mp : MsgpackIn)
deriving Repr, DecidableEq

/-- Continue with the cursor of a successful scan, or propagate its early
return. -/
def scanCont (s : ScanRes) (g : MsgpackIn → Bool × CdtFix × CdtStats) :
    Bool × CdtFix × CdtStats :=
  match s with
  | .exit ret cf2 st2 => (ret, cf2, st2)
  | .ok mp2 => g mp2

/-- The unordered-list element scan of `cdt_list_need_fix` with key checking
(`src/src/backup.c` lines 784-800): skip each element, classifying a failed
or non-storage skip as unfixable and an invalid nested key as an
invalid-key defect. -/
def listUnordScanCmk : MsgpackIn → CdtFix → CdtStats → Nat → ScanRes
  | mp, _, _, 0 => .ok mp
  | mp, cf, st, k + 1 =>
    let r := msgpack_sz_rep mp 1
    if r.2 = 0 ∨ r.1.hasNonstorage then
      let e := cdt_check_set_cannotfix r.1 cf st
      .exit false e.1 e.2
    else if check_map_keys_internal (mp.rem.take r.2) = none then
      .exit false { cf with need_log := true }
        { st with cf_invalidkey := st.cf_invalidkey + 1 }
    else listUnordScanCmk r.1 cf st k

/-- The unordered-list element scan without key checking (line 802): one
skip of all elements. -/
def listUnordScanFast (mp : MsgpackIn) (cf : CdtFix) (st : CdtStats)
    (eleCount : Nat) : ScanRes :=
  let r := msgpack_sz_rep mp eleCount
  if r.2 = 0 ∨ r.1.hasNonstorage then
    let e := cdt_check_set_cannotfix r.1 cf st
    ScanRes.exit false e.1 e.2
  else ScanRes.ok r.1

/-- The ordered-walk loop of `cdt_list_need_fix` (lines 836-885), counting
down the remaining iterations; at the loop head with `k + 1` iterations
remaining, the C remainder count `ele_count - i - 2` equals `k`.  After the
loop the cursor's accumulated non-storage flag is checked (line 876) and
the trailing size comparison runs. -/
def listOrdLoop : MsgpackIn → MsgpackIn → Nat → CdtFix → CdtStats → Bool →
    Nat → Bool × CdtFix × CdtStats
  | _, mp, sz, cf, st, _, 0 =>
    if mp.hasNonstorage then
      (false, { cf with need_log := true },
       { st with cannot_fix := st.cannot_fix + 1,
                 cf_nonstorage := st.cf_nonstorage + 1 })
    else
      cdt_check_sz mp sz { cf with content_sz := mp.offset - cf.contents } st
  | mpPrev, mp, sz, cf, st, cmk, k + 1 =>
    let startOff := mp.offset
    let t := msgpack_cmp mpPrev mp
    let mpPrev1 := t.1
    let mp1 := t.2.1
    let cmp := t.2.2
    if cmp ≠ CmpRes.less ∧ cmp ≠ CmpRes.equal then
      if mp1.hasNonstorage then
        let e := cdt_check_set_cannotfix mp1 cf st
        (false, e.1, e.2)
      else if k ≠ 0 ∧
          ((msgpack_sz_rep mp1 k).2 = 0 ∨ (msgpack_sz_rep mp1 k).1.hasNonstorage) then
        let e := cdt_check_set_cannotfix (msgpack_sz_rep mp1 k).1 cf st
        (false, e.1, e.2)
      else
        let mp2 := if k ≠ 0 then (msgpack_sz_rep mp1 k).1 else mp1
        let cf1 := { cf with content_sz := mp2.offset - cf.contents,
                             nf_list_order := true }
        if mp2.offset ≤ sz then
          let st1 := { st with need_fix := st.need_fix + 1,
                               nf_order := st.nf_order + 1 }
          if mp2.offset ≠ sz then
            (true, { cf1 with nf_padding := sz - mp2.offset },
             { st1 with nf_padding := st1.nf_padding + 1 })
          else (true, cf1, st1)
        else
          (false, cf1,
           { st with cannot_fix := st.cannot_fix + 1,
                     cf_corrupt := st.cf_corrupt + 1 })
    else if cmk ∧ check_map_keys_internal (mp1.slice startOff mp1.offset) = none then
      (false, { cf with need_log := true },
       { st with cf_invalidkey := st.cf_invalidkey + 1 })
    else listOrdLoop mpPrev1 mp1 sz cf st cmk k

/-- The ordered-walk prologue of `cdt_list_need_fix` (lines 820-834): copy
the trailing cursor, skip the first element, validate it, then run the
comparison loop. -/
def listOrderedRun (mp : MsgpackIn) (sz : Nat) (cf : CdtFix) (st : CdtStats)
    (cmk : Bool) (eleCount : Nat) : Bool × CdtFix × CdtStats :=
  let mpPrev := mp
  let r := msgpack_sz_rep mp 1
  if r.2 = 0 ∨ r.1.hasNonstorage then
    let e := cdt_check_set_cannotfix r.1 cf st
    (false, e.1, e.2)
  else if cmk ∧ check_map_keys_internal (mp.rem.take r.2) = none then
    (false, { cf with need_log := true },
     { st with cf_invalidkey := st.cf_invalidkey + 1 })
  else listOrdLoop mpPrev r.1 sz cf st cmk (eleCount - 2)

/-- `cdt_list_need_fix` of `src/src/backup.c` (line 744). -/
def cdt_list_need_fix (buf : List Token) (sz : Nat) (cf : CdtFix)
    (st : CdtStats) (cmk : Bool) : Bool × CdtFix × CdtStats :=
  let mp : MsgpackIn := ⟨buf.take sz, 0, false⟩
  match msgpack_get_list_ele_count mp with
  | none =>
    (false, { cf with need_log := true },
     { st with cannot_fix := st.cannot_fix + 1, cf_corrupt := st.cf_corrupt + 1 })
  | some (mp1, eleCount) =>
    if eleCount = 0 then
      cdt_check_sz mp1 sz
        { cf with ele_count := 0, contents := mp1.offset, content_sz := 0 } st
    else if msgpack_peek_is_ext mp1 then
      match msgpack_get_ext mp1 with
      | none =>
        (false, { cf with need_log := true },
         { st with cannot_fix := st.cannot_fix + 1,
                   cf_corrupt := st.cf_corrupt + 1 })
      | some (mp2, _, _) =>
        let cf1 := { cf with ele_count := eleCount - 1, contents := mp2.offset }
        if eleCount - 1 = 0 then
          cdt_check_sz mp2 sz { cf1 with content_sz := 0 } st
        else
          listOrderedRun mp2 sz cf1 st cmk eleCount
    else
      let cf1 := { cf with ele_count := eleCount, contents := mp1.offset }
      scanCont
        (if cmk then listUnordScanCmk mp1 cf1 st eleCount
         else listUnordScanFast mp1 cf1 st eleCount)
        (fun mp2 =>
          cdt_check_sz mp2 sz
            { cf1 with content_sz := mp2.offset - cf1.contents } st)

/-- The unordered-map entry scan of `cdt_map_need_fix` with key checking
(`src/src/backup.c` lines 586-617): per pair, skip and shallow-check the
key, then skip and recursively validate the value. -/
def mapUnordScanCmk : MsgpackIn → CdtFix → CdtStats → Nat → ScanRes
  | mp, _, _, 0 => .ok mp
  | mp, cf, st, k + 1 =>
    let startOff := mp.offset
    let r := msgpack_sz_rep mp 1
    if r.2 = 0 ∨ r.1.hasNonstorage then
      let e := cdt_check_set_cannotfix r.1 cf st
      .exit false e.1 e.2
    else if map_is_key (r.1.slice startOff r.1.offset) = false then
      .exit false { cf with need_log := true }
        { st with cf_invalidkey := st.cf_invalidkey + 1 }
    else
      let start2 := r.1.offset
      let r2 := msgpack_sz_rep r.1 1
      if r2.2 = 0 ∨ r2.1.hasNonstorage then
        let e := cdt_check_set_cannotfix r2.1 cf st
        .exit false e.1 e.2
      else if check_map_keys_internal (r2.1.slice start2 r2.1.offset) = none then
        .exit false { cf with need_log := true }
          { st with cf_invalidkey := st.cf_invalidkey + 1 }
      else mapUnordScanCmk r2.1 cf st k

/-- The unordered-map entry scan without key checking (line 619): one skip
of all `2 * ele_count` values. -/
def mapUnordScanFast (mp : MsgpackIn) (cf : CdtFix) (st : CdtStats)
    (eleCount : Nat) : ScanRes :=
  let r := msgpack_sz_rep mp (2 * eleCount)
  if r.2 = 0 ∨ r.1.hasNonstorage then
    let e := cdt_check_set_cannotfix r.1 cf st
    ScanRes.exit false e.1 e.2
  else ScanRes.ok r.1

/-- The defect branch of the ordered-walk loop of `cdt_map_need_fix`
(lines 693-727): the entering cursor has consumed the defective pair; `k`
is the number of remaining loop iterations, so the C remainder count
`2 * (ele_count - i - 2)` equals `2 * k` while the guard
`ele_count - i - 1 != 0` is always true - a defect at the final key
comparison makes the remainder skip return zero and is classified
unfixable. -/
def mapOrdDefect (mp2 : MsgpackIn) (sz : Nat) (cf : CdtFix) (st : CdtStats)
    (eleCount k : Nat) : Bool × CdtFix × CdtStats :=
  if mp2.hasNonstorage then
    let e := cdt_check_set_cannotfix mp2 cf st
    (false, e.1, e.2)
  else
    let rr := msgpack_sz_rep mp2 (2 * k)
    if rr.2 = 0 ∨ rr.1.hasNonstorage then
      let e := cdt_check_set_cannotfix rr.1 cf st
      (false, e.1, e.2)
    else
      let mp3 := rr.1
      let cf1 := { cf with content_sz := mp3.offset - cf.contents,
                           nf_map_order := true }
      if mp3.offset ≤ sz then
        if cdt_map_dup_key_check eleCount
            (mp3.slice cf.contents (cf.contents + cf1.content_sz)) then
          (false, { cf1 with need_log := true },
           { st with cannot_fix := st.cannot_fix + 1,
                     cf_dupkey := st.cf_dupkey + 1 })
        else
          let st1 := { st with need_fix := st.need_fix + 1,
                               nf_order := st.nf_order + 1 }
          if mp3.offset ≠ sz then
            (true, { cf1 with nf_padding := sz - mp3.offset },
             { st1 with nf_padding := st1.nf_padding + 1 })
          else (true, cf1, st1)
      else
        (false, { cf1 with need_log := true },
         { st with cannot_fix := st.cannot_fix + 1,
                   cf_corrupt := st.cf_corrupt + 1 })

/-- The ordered-walk loop of `cdt_map_need_fix` (lines 674-737), counting
down the remaining iterations. -/
def mapOrdLoop : MsgpackIn → MsgpackIn → Nat → CdtFix → CdtStats → Bool →
    Nat → Nat → Bool × CdtFix × CdtStats
  | _, mp, sz, cf, st, _, _, 0 =>
    cdt_check_sz mp sz { cf with content_sz := mp.offset - cf.contents } st
  | mpPrev, mp, sz, cf, st, cmk, eleCount, k + 1 =>
    let startOff := mp.offset
    let t := msgpack_cmp mpPrev mp
    let mpPrev1 := t.1
    let mp1 := t.2.1
    let cmp := t.2.2
    if cmk ∧ map_is_key (mp1.slice startOff mp1.offset) = false then
      (false, { cf with need_log := true },
       { st with cf_invalidkey := st.cf_invalidkey + 1 })
    else
      let valStart := mp1.offset
      let rp := msgpack_sz mpPrev1
      if rp.2 = 0 then
        let e := cdt_check_set_cannotfix mp1 cf st
        (false, e.1, e.2)
      else
        let rv := msgpack_sz mp1
        if rv.2 = 0 ∨ rv.1.hasNonstorage then
          let e := cdt_check_set_cannotfix rv.1 cf st
          (false, e.1, e.2)
        else
          let mpPrev2 := rp.1
          let mp2 := rv.1
          if cmp ≠ CmpRes.less then
            mapOrdDefect mp2 sz cf st eleCount k
          else if cmk ∧
              check_map_keys_internal (mp2.slice valStart mp2.offset) = none then
            (false, { cf with need_log := true },
             { st with cf_invalidkey := st.cf_invalidkey + 1 })
          else mapOrdLoop mpPrev2 mp2 sz cf st cmk eleCount k

/-- The ordered-walk prologue of `cdt_map_need_fix` (lines 644-672): copy
the trailing cursor, skip and validate the first key and value, then run
the comparison loop. -/
def mapOrderedRun (mp : MsgpackIn) (sz : Nat) (cf : CdtFix) (st : CdtStats)
    (cmk : Bool) (eleCount : Nat) : Bool × CdtFix × CdtStats :=
  let mpPrev := mp
  let keyStart := mp.offset
  let r := msgpack_sz_rep mp 1
  if r.2 = 0 ∨ r.1.hasNonstorage then
    let e := cdt_check_set_cannotfix r.1 cf st
    (false, e.1, e.2)
  else if cmk ∧ map_is_key (r.1.slice keyStart r.1.offset) = false then
    (false, { cf with need_log := true },
     { st with cf_invalidkey := st.cf_invalidkey + 1 })
  else
    let valStart := r.1.offset
    let r2 := msgpack_sz_rep r.1 1
    if r2.2 = 0 ∨ r2.1.hasNonstorage then
      let e := cdt_check_set_cannotfix r2.1 cf st
      (false, e.1, e.2)
    else if cmk ∧
        check_map_keys_internal (r2.1.slice valStart r2.1.offset) = none then
      (false, { cf with need_log := true },
       { st with cf_invalidkey := st.cf_invalidkey + 1 })
    else mapOrdLoop mpPrev r2.1 sz cf st cmk eleCount (eleCount - 2)

/-- `cdt_map_need_fix` of `src/src/backup.c` (line 547). -/
def cdt_map_need_fix (buf : List Token) (sz : Nat) (cf : CdtFix)
    (st : CdtStats) (cmk : Bool) : Bool × CdtFix × CdtStats :=
  let mp : MsgpackIn := ⟨buf.take sz, 0, false⟩
  match msgpack_get_map_ele_count mp with
  | none =>
    (false, { cf with need_log := true },
     { st with cannot_fix := st.cannot_fix + 1, cf_corrupt := st.cf_corrupt + 1 })
  | some (mp1, eleCount) =>
    if eleCount = 0 then
      cdt_check_sz mp1 sz
        { cf with ele_count := 0, contents := mp1.offset, content_sz := 0 } st
    else if msgpack_peek_is_ext mp1 then
      match msgpack_get_ext mp1 with
      | none =>
        (false, { cf with need_log := true },
         { st with cannot_fix := st.cannot_fix + 1,
                   cf_corrupt := st.cf_corrupt + 1 })
      | some (mp2, _, _) =>
        let rm := msgpack_sz mp2
        if rm.2 = 0 then
          (false, { cf with need_log := true },
           { st with cannot_fix := st.cannot_fix + 1,
                     cf_corrupt := st.cf_corrupt + 1 })
        else
          let mp3 := rm.1
          let cf1 := { cf with ele_count := eleCount - 1, contents := mp3.offset }
          if eleCount - 1 = 0 then
            cdt_check_sz mp3 sz { cf1 with content_sz := 0 } st
          else
            mapOrderedRun mp3 sz cf1 st cmk eleCount
    else
      let cf1 := { cf with ele_count := eleCount, contents := mp1.offset }
      scanCont
        (if cmk then mapUnordScanCmk mp1 cf1 st eleCount
         else mapUnordScanFast mp1 cf1 st eleCount)
        (fun mp2 =>
          let cf2 := { cf1 with content_sz := mp2.offset - cf1.contents }
          if cdt_map_dup_key_check eleCount
              (mp2.slice cf2.contents (cf2.contents + cf2.content_sz)) then
            (false, { cf2 with need_log := true },
             { st with cannot_fix := st.cannot_fix + 1,
                       cf_dupkey := st.cf_dupkey + 1 })
          else
            cdt_check_sz mp2 sz cf2 st)

/-- The two stats instances of `backup_config` (`cdt_list`, `cdt_map`). -/
structure BcStats where
  cdt_list : CdtStats
  cdt_map : CdtStats
deriving Repr, DecidableEq

/-- Both instances zeroed. -/
def bcStats0 : BcStats :=
  ⟨cdtStats0, cdtStats0⟩

/-- `cdt_need_fix` of `src/src/backup.c` (line 889): dispatch on the peeked
msgpack type of the bin's value, counting the bin and classifying it; any
other peeked type falls through with no effect. -/
def cdt_need_fix (buf : List Token) (sz : Nat) (cf : CdtFix) (bc : BcStats)
    (cmk : Bool) : Bool × CdtFix × BcStats :=
  match msgpack_buf_peek_type (buf.take sz) with
  | .list =>
    let st := { bc.cdt_list with count := bc.cdt_list.count + 1 }
    let r := cdt_list_need_fix buf sz cf st cmk
    (r.1, r.2.1, { bc with cdt_list := r.2.2 })
  | .map =>
    let st := { bc.cdt_map with count := bc.cdt_map.count + 1 }
    let r := cdt_map_need_fix buf sz cf st cmk
    (r.1, r.2.1, { bc with cdt_map := r.2.2 })
  | _ => (false, cf, bc)

/-- A write issued by the repair generator through the external write
interface. -/
inductive WriteCall where
  /-- `aerospike_key_put` of the record after `as_bytes_truncate(b,
  cf->nf_padding)`: the bin's new size. -/
  | keyPut (newSize : Nat)
  /-- `aerospike_key_operate` with a list-clear operation followed by a
  packed list-append-items operation: the appended element count, the
  appended content tokens, and the create/modify flags
  (`AS_LIST_ORDERED`, `AS_LIST_WRITE_ADD_UNIQUE`, `AS_LIST_WRITE_NO_FAIL`,
  `AS_LIST_WRITE_PARTIAL`). -/
  | keyOperate (clearFirst : Bool) (eleCount : Nat) (contents : List Token)
      (createOrdered addUnique noFail allowPart : Bool)
deriving Repr, DecidableEq

/-- `cdt_fix_list` of `src/src/backup.c` (line 910).  The external write
interface is represented by three oracles: whether `as_cdt_add_packed`
succeeds, whether `aerospike_key_put` succeeds, and whether
`aerospike_key_operate` succeeds.  Returns the writes issued, the updated
stats and the stop flag (which the function never assigns). -/
def cdt_fix_list (binBuf : List Token) (binSize : Nat) (cf : CdtFix)
    (packOk putOk operateOk : Bool) (st : CdtStats) (stop : Bool) :
    List WriteCall × CdtStats × Bool :=
  if cf.nf_list_order = false ∧ cf.nf_padding ≠ 0 then
    let call := WriteCall.keyPut (binSize - cf.nf_padding)
    if putOk then ([call], { st with fixed := st.fixed + 1 }, stop)
    else ([call], { st with nf_failed := st.nf_failed + 1 }, stop)
  else
    if packOk = false then
      ([], { st with nf_failed := st.nf_failed + 1 }, stop)
    else
      let call := WriteCall.keyOperate true cf.ele_count
        ((binBuf.drop cf.contents).take cf.content_sz) true true true true
      if operateOk then ([call], { st with fixed := st.fixed + 1 }, stop)
      else ([call], { st with nf_failed := st.nf_failed + 1 }, stop)

/-- The `as_bytes` blob types that mark a CDT bin. -/
inductive AsBytesType where
  | list
  | map
deriving Repr, DecidableEq

/-- The per-bin body of `cdt_check` of `src/src/backup.c` (lines 1006-1027):
classify the bin, and when a fix is needed and fixing is enabled repair
list-typed bins (map bins are never repaired).  Returns the record-level
log decision, the updated stats, the writes issued and the stop flag. -/
def cdt_check_bin (btype : AsBytesType) (buf : List Token) (bc : BcStats)
    (cdtFixEnabled cmk : Bool) (packOk putOk operateOk : Bool) (stop : Bool) :
    Bool × BcStats × List WriteCall × Bool :=
  let r := cdt_need_fix buf buf.length cdtFix0 bc cmk
  let needFix := r.1
  let cf := r.2.1
  let bc1 := r.2.2
  if needFix = false then (cf.need_log, bc1, [], stop)
  else if cdtFixEnabled = false then (true, bc1, [], stop)
  else
    match btype with
    | .list =>
      let f := cdt_fix_list buf buf.length cf packOk putOk operateOk
        bc1.cdt_list stop
      (true, { bc1 with cdt_list := f.2.1 }, f.1, f.2.2)
    | .map => (true, bc1, [], stop)

/-- The client statuses distinguished by the restore write loop of
`src/src/restore.c` (lines 624-706). -/
inductive AsStatus where
  | ok
  | errServerFull
  | roleViolation
  | errRecordTooBig
  | errKeyMismatch
  | errBinName
  | errAlwaysForbidden
  | errGeneration
  | errExists
  | errDeviceOverload
  | errOther
deriving Repr, DecidableEq

/-- The per-record counters the restore write loop updates. -/
structure RestoreCounters where
  ignored : Nat
  fresher : Nat
  existed : Nat
  inserted : Nat
  backoffCount : Nat
deriving Repr, DecidableEq

/-- All-zero restore counters. -/
def restoreCounters0 : RestoreCounters :=
  ⟨0, 0, 0, 0, 0⟩

/-- Configuration of the restore write loop.  Modelled from the spec: the
fixed maximum attempt count `MAX_TRIES` and the initial backoff
`INITIAL_BACKOFF * 1000` microseconds are compile-time constants of the
restore sources not present under `src/`; they are kept as parameters. -/
structure RestoreEnv where
  maxTries : Nat
  initialBackoffUs : Nat
  ignoreRecError : Bool
deriving Repr, DecidableEq

/-- The bounded-retry write loop of `restore_thread_func`
(`src/src/restore.c` lines 609-711), recursing on the remaining attempt
budget (`remaining + tries = MAX_TRIES`, so `tries == MAX_TRIES - 1` is
`remaining = 0` at the head of the body).  `status i` is the client status
of the i-th `aerospike_key_put` attempt.  Returns the counters, the stop
flag, the microsecond sleeps performed (`sleep(1)` is one million), and
the number of attempts made. -/
def restoreLoop (env : RestoreEnv) (status : Nat → AsStatus) :
    Nat → Nat → Nat → Bool → RestoreCounters → List Nat →
    RestoreCounters × Bool × List Nat × Nat
  | 0, tries, _, stop, cnt, sleeps => (cnt, stop, sleeps, tries)
  | remaining + 1, tries, backoff, stop, cnt, sleeps =>
    if stop then (cnt, stop, sleeps, tries)
    else
      match status tries with
      | .errServerFull => (cnt, true, sleeps, tries + 1)
      | .roleViolation => (cnt, true, sleeps, tries + 1)
      | .errRecordTooBig =>
        ({ cnt with ignored := cnt.ignored + 1 },
         if env.ignoreRecError then stop else true, sleeps, tries + 1)
      | .errKeyMismatch =>
        ({ cnt with ignored := cnt.ignored + 1 },
         if env.ignoreRecError then stop else true, sleeps, tries + 1)
      | .errBinName =>
        ({ cnt with ignored := cnt.ignored + 1 },
         if env.ignoreRecError then stop else true, sleeps, tries + 1)
      | .errAlwaysForbidden =>
        ({ cnt with ignored := cnt.ignored + 1 },
         if env.ignoreRecError then stop else true, sleeps, tries + 1)
      | .errGeneration =>
        ({ cnt with fresher := cnt.fresher + 1 }, stop, sleeps, tries + 1)
      | .errExists =>
        ({ cnt with existed := cnt.existed + 1 }, stop, sleeps, tries + 1)
      | .ok =>
        ({ cnt with inserted := cnt.inserted + 1 }, stop, sleeps, tries + 1)
      | .errDeviceOverload =>
        if remaining = 0 then (cnt, true, sleeps, tries + 1)
        else
          restoreLoop env status remaining (tries + 1) (backoff * 2) stop
            { cnt with backoffCount := cnt.backoffCount + 1 }
            (sleeps ++ [backoff])
      | .errOther =>
        if remaining = 0 then (cnt, true, sleeps, tries + 1)
        else
          restoreLoop env status remaining (tries + 1) env.initialBackoffUs stop
            cnt (sleeps ++ [1000000])

/-- One record's pass through the restore write loop, started as the C does
with `tries = 0`, `backoff = INITIAL_BACKOFF * 1000` and the shared stop
flag clear. -/
def restoreRecordWrite (env : RestoreEnv) (status : Nat → AsStatus) :
    RestoreCounters × Bool × List Nat × Nat :=
  restoreLoop env status env.maxTries 0 env.initialBackoffUs false
    restoreCounters0 []

/-- Stats delta: repairable padding (`need_fix`, `nf_padding`). -/
def stPad (st : CdtStats) : CdtStats :=
  { st with need_fix := st.need_fix + 1, nf_padding := st.nf_padding + 1 }

/-- Stats delta: unfixable corrupt. -/
def stCor (st : CdtStats) : CdtStats :=
  { st with cannot_fix := st.cannot_fix + 1, cf_corrupt := st.cf_corrupt + 1 }

/-- Stats delta: unfixable non-storage. -/
def stNs (st : CdtStats) : CdtStats :=
  { st with cannot_fix := st.cannot_fix + 1, cf_nonstorage := st.cf_nonstorage + 1 }

/-- Stats delta: unfixable duplicate key. -/
def stDup (st : CdtStats) : CdtStats :=
  { st with cannot_fix := st.cannot_fix + 1, cf_dupkey := st.cf_dupkey + 1 }

/-- Stats delta: invalid key (counted without `cannot_fix`). -/
def stInv (st : CdtStats) : CdtStats :=
  { st with cf_invalidkey := st.cf_invalidkey + 1 }

/-- Stats delta: repairable order defect without padding. -/
def stOrd (st : CdtStats) : CdtStats :=
  { st with need_fix := st.need_fix + 1, nf_order := st.nf_order + 1 }

/-- Stats delta: repairable order defect with padding. -/
def stOrdPad (st : CdtStats) : CdtStats :=
  { st with need_fix := st.need_fix + 1, nf_order := st.nf_order + 1,
            nf_padding := st.nf_padding + 1 }

/-- Componentwise order of stats (every counter only ever grows). -/
def statLE (a b : CdtStats) : Prop :=
  a.count ≤ b.count ∧ a.fixed ≤ b.fixed ∧ a.need_fix ≤ b.need_fix ∧
  a.nf_failed ≤ b.nf_failed ∧ a.nf_order ≤ b.nf_order ∧
  a.nf_padding ≤ b.nf_padding ∧ a.cannot_fix ≤ b.cannot_fix ∧
  a.cf_dupkey ≤ b.cf_dupkey ∧ a.cf_nonstorage ≤ b.cf_nonstorage ∧
  a.cf_corrupt ≤ b.cf_corrupt ∧ a.cf_invalidkey ≤ b.cf_invalidkey

/-- The complete set of stats deltas a single classification can apply. -/
def anyPattern (st st' : CdtStats) : Prop :=
  st' = st ∨ st' = stPad st ∨ st' = stCor st ∨ st' = stNs st ∨ st' = stDup st ∨
  st' = stInv st ∨ st' = stOrd st ∨ st' = stOrdPad st

/-- Characterization of every classification outcome of the list
classifier relative to the entry stats and classification record. -/
def ClassOutL (cf : CdtFix) (st : CdtStats) (r : Bool × CdtFix × CdtStats) : Prop :=
  (r.1 = false ∧
    (r.2.2 = st ∨ r.2.2 = stCor st ∨ r.2.2 = stNs st ∨ r.2.2 = stInv st)) ∨
  (r.1 = true ∧
    ((r.2.2 = stPad st ∧ r.2.1.nf_list_order = cf.nf_list_order) ∨
     (r.2.2 = stOrd st ∧ r.2.1.nf_padding = cf.nf_padding) ∨
     (r.2.2 = stOrdPad st ∧ r.2.1.nf_padding ≠ 0)))

/-- Characterization of every classification outcome of the map
classifier relative to the entry stats and classification record. -/
def ClassOutM (cf : CdtFix) (st : CdtStats) (r : Bool × CdtFix × CdtStats) : Prop :=
  (r.1 = false ∧
    (r.2.2 = st ∨ r.2.2 = stCor st ∨ r.2.2 = stNs st ∨ r.2.2 = stInv st ∨
     r.2.2 = stDup st)) ∨
  (r.1 = true ∧
    ((r.2.2 = stPad st ∧ r.2.1.nf_map_order = cf.nf_map_order) ∨
     (r.2.2 = stOrd st ∧ r.2.1.nf_padding = cf.nf_padding) ∨
     (r.2.2 = stOrdPad st ∧ r.2.1.nf_padding ≠ 0)))

/-- Difference invariant of the unfixable counters: the growth of
`cannot_fix` equals the combined growth of its three incremented
subdivisions (`cf_nonstorage`, `cf_corrupt`, `cf_dupkey`). -/
def statUnfixInv (a b : CdtStats) : Prop :=
  b.cannot_fix + a.cf_nonstorage + a.cf_corrupt + a.cf_dupkey =
    a.cannot_fix + b.cf_nonstorage + b.cf_corrupt + b.cf_dupkey

/-- Bump the per-kind bin counter, as `cdt_need_fix` does on dispatch. -/
def bumpCount (st : CdtStats) : CdtStats :=
  { st with count := st.count + 1 }

/-- Formalization of the claim-side notion "correctly ordered list
content": walking `k` comparison steps from the value starting at `prev`,
every consecutive pair compares Less or Equal. -/
def listChainOk : List Token → Nat → Bool
  | _, 0 => true
  | prev, k + 1 =>
    match skipVals prev 1 with
    | none => false
    | some (c, _) =>
      match cmpHead prev (prev.drop c) with
      | .less => listChainOk (prev.drop c) k
      | .equal => listChainOk (prev.drop c) k
      | _ => false

/-- Formalization of the claim-side notion "correctly ordered map
content": walking `k` key-comparison steps from the key starting at
`prev`, each key compares strictly Less than the next (one key and one
value lie between consecutive keys). -/
def mapKeysChainOk : List Token → Nat → Bool
  | _, 0 => true
  | prev, k + 1 =>
    match skipVals prev 2 with
    | none => false
    | some (c, _) =>
      match cmpHead prev (prev.drop c) with
      | .less => mapKeysChainOk (prev.drop c) k
      | _ => false

lemma skipValsF_congr (f : Nat) :
    ∀ g toks k, List.length toks < f → List.length toks < g →
      skipValsF f toks k = skipValsF g toks k := by
  induction f with
  | zero => intro g toks k hf _; exact absurd hf (Nat.not_lt_zero _)
  | succ f ih =>
    intro g toks k hf hg
    cases g with
    | zero => exact absurd hg (Nat.not_lt_zero _)
    | succ g =>
      cases k with
      | zero => simp [skipValsF]
      | succ k =>
        cases toks with
        | nil => simp [skipValsF]
        | cons t rest =>
          have h1 : rest.length < f := Nat.lt_of_succ_lt_succ hf
          have h1g : rest.length < g := Nat.lt_of_succ_lt_succ hg
          simp only [skipValsF]
          rw [ih g rest t.childCount h1 h1g]
          cases h2 : skipValsF g rest t.childCount with
          | none => rfl
          | some v =>
            obtain ⟨c1, ns1⟩ := v
            dsimp only
            have h3 : (rest.drop c1).length < f :=
              lt_of_le_of_lt (by simp [List.length_drop]) h1
            have h3g : (rest.drop c1).length < g :=
              lt_of_le_of_lt (by simp [List.length_drop]) h1g
            rw [ih g (rest.drop c1) k h3 h3g]

lemma skipValsF_eq_skipVals (f : Nat) (toks : List Token) (k : Nat)
    (h : toks.length < f) : skipValsF f toks k = skipVals toks k :=
  skipValsF_congr f (toks.length + 1) toks k h (Nat.lt_succ_self _)

lemma skipVals_zero (toks : List Token) : skipVals toks 0 = some (0, false) := by
  cases toks <;> rfl

lemma skipVals_nil (k : Nat) : skipVals [] (k + 1) = none := rfl

/-- Closed form of `skipVals` on a nonempty stream. -/
lemma skipVals_cons (t : Token) (rest : List Token) (k : Nat) :
    skipVals (t :: rest) (k + 1) =
      if t.isTrunc then none
      else
        match skipVals rest t.childCount with
        | none => none
        | some (c1, ns1) =>
          match skipVals (rest.drop c1) k with
          | none => none
          | some (c2, ns2) => some (1 + c1 + c2, t.isNonstorage || ns1 || ns2) := by
  show skipValsF (rest.length + 1 + 1) (t :: rest) (k + 1) = _
  simp only [skipValsF]
  rw [skipValsF_eq_skipVals _ _ _ (Nat.lt_succ_self _)]
  cases h1 : skipVals rest t.childCount with
  | none => rfl
  | some v1 =>
    obtain ⟨c1, ns1⟩ := v1
    dsimp only
    rw [skipValsF_eq_skipVals _ _ _
      (lt_of_le_of_lt (by simp [List.length_drop]) (Nat.lt_succ_self _))]

/-- Splitting lemma: reading `k + 1` values is reading one value and then
`k` values from the rest. -/
lemma skipVals_succ (toks : List Token) (k : Nat) :
    skipVals toks (k + 1) =
      match skipVals toks 1 with
      | none => none
      | some (c1, ns1) =>
        match skipVals (toks.drop c1) k with
        | none => none
        | some (c2, ns2) => some (c1 + c2, ns1 || ns2) := by
  cases toks with
  | nil => rfl
  | cons t rest =>
    rw [skipVals_cons t rest k, skipVals_cons t rest 0]
    cases ht : t.isTrunc with
    | true => simp [ht]
    | false =>
      simp only [ht, Bool.false_eq_true, if_false]
      cases h1 : skipVals rest t.childCount with
      | none => rfl
      | some v1 =>
        obtain ⟨c1, ns1⟩ := v1
        dsimp only
        rw [skipVals_zero]
        dsimp only
        have hdrop : (t :: rest).drop (1 + c1 + 0) = rest.drop c1 := by
          have : 1 + c1 + 0 = c1 + 1 := by omega
          rw [this, List.drop_succ_cons]
        rw [hdrop]
        cases h2 : skipVals (rest.drop c1) k with
        | none => rfl
        | some v2 =>
          obtain ⟨c2, ns2⟩ := v2
          dsimp only
          simp [Bool.or_assoc]

lemma skipVals_pos (toks : List Token) (k c : Nat) (ns : Bool)
    (h : skipVals toks (k + 1) = some (c, ns)) : 0 < c := by
  cases toks with
  | nil => simp [skipVals_nil] at h
  | cons t rest =>
    rw [skipVals_cons] at h
    cases ht : t.isTrunc <;> rw [ht] at h <;> simp at h
    rcases h1 : skipVals rest t.childCount with _ | ⟨c1, ns1⟩ <;> rw [h1] at h
    · simp at h
    · dsimp only at h
      rcases h2 : skipVals (rest.drop c1) k with _ | ⟨c2, ns2⟩ <;> rw [h2] at h
      · simp at h
      · dsimp only at h
        have : c = 1 + c1 + c2 := by
          have := congrArg (fun o => o.map Prod.fst) h
          simpa using this.symm
        omega

lemma MsgpackIn.rem_mk (B : List Token) (o : Nat) (ns : Bool) :
    MsgpackIn.rem ⟨B, o, ns⟩ = B.drop o := rfl

lemma MsgpackIn.rem_advance (B : List Token) (o c : Nat) (ns : Bool) :
    MsgpackIn.rem ⟨B, o + c, ns⟩ = (B.drop o).drop c := by
  simp [MsgpackIn.rem, List.drop_drop, Nat.add_comm]

lemma classOutL_cannotfix (mp : MsgpackIn) (cf cf0 : CdtFix) (st : CdtStats) :
    ClassOutL cf0 st
      (false, (cdt_check_set_cannotfix mp cf st).1, (cdt_check_set_cannotfix mp cf st).2) := by
  unfold ClassOutL cdt_check_set_cannotfix
  cases h : mp.hasNonstorage <;> simp [stCor, stNs, h]

lemma classOutM_cannotfix (mp : MsgpackIn) (cf cf0 : CdtFix) (st : CdtStats) :
    ClassOutM cf0 st
      (false, (cdt_check_set_cannotfix mp cf st).1, (cdt_check_set_cannotfix mp cf st).2) := by
  unfold ClassOutM cdt_check_set_cannotfix
  cases h : mp.hasNonstorage <;> simp [stCor, stNs, h]

lemma classOutL_check_sz (mp : MsgpackIn) (sz : Nat) (cf cf2 : CdtFix)
    (st : CdtStats) (hflag : cf2.nf_list_order = cf.nf_list_order) :
    ClassOutL cf st (cdt_check_sz mp sz cf2 st) := by
  unfold ClassOutL cdt_check_sz
  by_cases h1 : mp.offset < sz
  · simp [h1, stPad, hflag]
  · by_cases h2 : mp.offset > sz <;> simp [h1, h2, stCor]

lemma classOutM_check_sz (mp : MsgpackIn) (sz : Nat) (cf cf2 : CdtFix)
    (st : CdtStats) (hflag : cf2.nf_map_order = cf.nf_map_order) :
    ClassOutM cf st (cdt_check_sz mp sz cf2 st) := by
  unfold ClassOutM cdt_check_sz
  by_cases h1 : mp.offset < sz
  · simp [h1, stPad, hflag]
  · by_cases h2 : mp.offset > sz <;> simp [h1, h2, stCor]

lemma classOutL_invalid (cf cf2 : CdtFix) (st : CdtStats) :
    ClassOutL cf st (false, { cf2 with need_log := true },
      { st with cf_invalidkey := st.cf_invalidkey + 1 }) := by
  unfold ClassOutL
  simp [stInv]

lemma classOutM_invalid (cf cf2 : CdtFix) (st : CdtStats) :
    ClassOutM cf st (false, { cf2 with need_log := true },
      { st with cf_invalidkey := st.cf_invalidkey + 1 }) := by
  unfold ClassOutM
  simp [stInv]

lemma classOutL_corrupt (cf cf2 : CdtFix) (st : CdtStats) :
    ClassOutL cf st (false, cf2,
      { st with cannot_fix := st.cannot_fix + 1, cf_corrupt := st.cf_corrupt + 1 }) := by
  unfold ClassOutL
  simp [stCor]

lemma classOutM_corrupt (cf cf2 : CdtFix) (st : CdtStats) :
    ClassOutM cf st (false, cf2,
      { st with cannot_fix := st.cannot_fix + 1, cf_corrupt := st.cf_corrupt + 1 }) := by
  unfold ClassOutM
  simp [stCor]

lemma cannotfix_fst (mp : MsgpackIn) (cf : CdtFix) (st : CdtStats) :
    (cdt_check_set_cannotfix mp cf st).1 = { cf with need_log := true } := rfl

lemma cannotfix_snd (mp : MsgpackIn) (cf : CdtFix) (st : CdtStats) :
    (cdt_check_set_cannotfix mp cf st).2 =
      if mp.hasNonstorage then stNs st else stCor st := by
  unfold cdt_check_set_cannotfix stNs stCor
  cases h : mp.hasNonstorage <;> simp [h]

lemma listUnordScanCmk_exit :
    ∀ k mp cf st ret cf' st', listUnordScanCmk mp cf st k = .exit ret cf' st' →
      ret = false ∧ (st' = stNs st ∨ st' = stCor st ∨ st' = stInv st) := by
  intro k
  induction k with
  | zero => intro mp cf st ret cf' st' h; simp [listUnordScanCmk] at h
  | succ k ih =>
    intro mp cf st ret cf' st' h
    simp only [listUnordScanCmk] at h
    split_ifs at h with h1 h2
    · rw [ScanRes.exit.injEq] at h
      refine ⟨h.1.symm, ?_⟩
      rw [← h.2.2, cannotfix_snd]
      split_ifs <;> simp
    · rw [ScanRes.exit.injEq] at h
      exact ⟨h.1.symm, Or.inr (Or.inr (by rw [← h.2.2]; simp [stInv]))⟩
    · exact ih _ _ _ _ _ _ h

lemma listUnordScanFast_exit (mp : MsgpackIn) (cf : CdtFix) (st : CdtStats)
    (eleCount : Nat) (ret : Bool) (cf' : CdtFix) (st' : CdtStats)
    (h : listUnordScanFast mp cf st eleCount = .exit ret cf' st') :
    ret = false ∧ (st' = stNs st ∨ st' = stCor st ∨ st' = stInv st) := by
  simp only [listUnordScanFast] at h
  split_ifs at h with h1
  · rw [ScanRes.exit.injEq] at h
    refine ⟨h.1.symm, ?_⟩
    rw [← h.2.2, cannotfix_snd]
    split_ifs <;> simp

lemma mapUnordScanCmk_exit :
    ∀ k mp cf st ret cf' st', mapUnordScanCmk mp cf st k = .exit ret cf' st' →
      ret = false ∧ (st' = stNs st ∨ st' = stCor st ∨ st' = stInv st) := by
  intro k
  induction k with
  | zero => intro mp cf st ret cf' st' h; simp [mapUnordScanCmk] at h
  | succ k ih =>
    intro mp cf st ret cf' st' h
    simp only [mapUnordScanCmk] at h
    split_ifs at h with h1 h2 h3 h4
    · rw [ScanRes.exit.injEq] at h
      refine ⟨h.1.symm, ?_⟩
      rw [← h.2.2, cannotfix_snd]
      split_ifs <;> simp
    · rw [ScanRes.exit.injEq] at h
      exact ⟨h.1.symm, Or.inr (Or.inr (by rw [← h.2.2]; simp [stInv]))⟩
    · rw [ScanRes.exit.injEq] at h
      refine ⟨h.1.symm, ?_⟩
      rw [← h.2.2, cannotfix_snd]
      split_ifs <;> simp
    · rw [ScanRes.exit.injEq] at h
      exact ⟨h.1.symm, Or.inr (Or.inr (by rw [← h.2.2]; simp [stInv]))⟩
    · exact ih _ _ _ _ _ _ h

lemma mapUnordScanFast_exit (mp : MsgpackIn) (cf : CdtFix) (st : CdtStats)
    (eleCount : Nat) (ret : Bool) (cf' : CdtFix) (st' : CdtStats)
    (h : mapUnordScanFast mp cf st eleCount = .exit ret cf' st') :
    ret = false ∧ (st' = stNs st ∨ st' = stCor st ∨ st' = stInv st) := by
  simp only [mapUnordScanFast] at h
  split_ifs at h with h1
  · rw [ScanRes.exit.injEq] at h
    refine ⟨h.1.symm, ?_⟩
    rw [← h.2.2, cannotfix_snd]
    split_ifs <;> simp

lemma listOrdLoop_out :
    ∀ k mpPrev mp sz cf st cmk, ClassOutL cf st (listOrdLoop mpPrev mp sz cf st cmk k) := by
  intro k
  induction k with
  | zero =>
    intro mpPrev mp sz cf st cmk
    simp only [listOrdLoop]
    split_ifs with hns
    · unfold ClassOutL
      simp [stNs]
    · exact classOutL_check_sz _ _ _ _ _ rfl
  | succ k ih =>
    intro mpPrev mp sz cf st cmk
    simp only [listOrdLoop]
    split_ifs with h1 h2 h3 h4 h5 h6 h7 h8 h9
    all_goals first
      | exact classOutL_cannotfix _ _ _ _
      | exact ih _ _ _ _ _ _
      | (unfold ClassOutL
         right
         refine ⟨rfl, Or.inr (Or.inr ⟨?_, ?_⟩)⟩
         · simp [stOrdPad]
         · dsimp only
           omega)
      | (unfold ClassOutL
         right
         refine ⟨rfl, Or.inr (Or.inl ⟨?_, rfl⟩)⟩
         simp [stOrd]
         done)
      | (unfold ClassOutL
         left
         refine ⟨rfl, Or.inr (Or.inl ?_)⟩
         simp [stCor]
         done)
      | (unfold ClassOutL
         left
         refine ⟨rfl, Or.inr (Or.inr (Or.inr ?_))⟩
         simp [stInv]
         done)

lemma mapOrdDefect_out (mp2 : MsgpackIn) (sz : Nat) (cf : CdtFix)
    (st : CdtStats) (eleCount k : Nat) :
    ClassOutM cf st (mapOrdDefect mp2 sz cf st eleCount k) := by
  simp only [mapOrdDefect]
  split_ifs with h1 h2 h3 h4 h5
  all_goals first
    | exact classOutM_cannotfix _ _ _ _
    | (unfold ClassOutM
       right
       refine ⟨rfl, Or.inr (Or.inr ⟨?_, ?_⟩)⟩
       · simp [stOrdPad]
         done
       · dsimp only
         omega)
    | (unfold ClassOutM
       right
       refine ⟨rfl, Or.inr (Or.inl ⟨?_, rfl⟩)⟩
       simp [stOrd]
       done)
    | (unfold ClassOutM
       left
       refine ⟨rfl, Or.inr (Or.inl ?_)⟩
       simp [stCor]
       done)
    | (unfold ClassOutM
       left
       refine ⟨rfl, Or.inr (Or.inr (Or.inr (Or.inr ?_)))⟩
       simp [stDup]
       done)

lemma mapOrdLoop_out :
    ∀ k mpPrev mp sz cf st cmk eleCount,
      ClassOutM cf st (mapOrdLoop mpPrev mp sz cf st cmk eleCount k) := by
  intro k
  induction k with
  | zero =>
    intro mpPrev mp sz cf st cmk eleCount
    simp only [mapOrdLoop]
    exact classOutM_check_sz _ _ _ _ _ rfl
  | succ k ih =>
    intro mpPrev mp sz cf st cmk eleCount
    simp only [mapOrdLoop]
    split_ifs with h1 h2 h3 h4 h5
    all_goals first
      | exact classOutM_cannotfix _ _ _ _
      | exact mapOrdDefect_out _ _ _ _ _ _
      | exact ih _ _ _ _ _ _ _
      | (unfold ClassOutM
         left
         refine ⟨rfl, Or.inr (Or.inr (Or.inr (Or.inl ?_)))⟩
         simp [stInv]
         done)

lemma ClassOutL_of_flags (cf cf1 : CdtFix) (st : CdtStats)
    (r : Bool × CdtFix × CdtStats) (h : ClassOutL cf1 st r)
    (h1 : cf1.nf_list_order = cf.nf_list_order)
    (h2 : cf1.nf_padding = cf.nf_padding) : ClassOutL cf st r := by
  unfold ClassOutL at h ⊢
  rcases h with ⟨hr, hd⟩ | ⟨hr, hd⟩
  · exact Or.inl ⟨hr, hd⟩
  · refine Or.inr ⟨hr, ?_⟩
    rcases hd with ⟨ha, hb⟩ | ⟨ha, hb⟩ | ⟨ha, hb⟩
    · exact Or.inl ⟨ha, by rw [hb, h1]⟩
    · exact Or.inr (Or.inl ⟨ha, by rw [hb, h2]⟩)
    · exact Or.inr (Or.inr ⟨ha, hb⟩)

lemma ClassOutM_of_flags (cf cf1 : CdtFix) (st : CdtStats)
    (r : Bool × CdtFix × CdtStats) (h : ClassOutM cf1 st r)
    (h1 : cf1.nf_map_order = cf.nf_map_order)
    (h2 : cf1.nf_padding = cf.nf_padding) : ClassOutM cf st r := by
  unfold ClassOutM at h ⊢
  rcases h with ⟨hr, hd⟩ | ⟨hr, hd⟩
  · exact Or.inl ⟨hr, hd⟩
  · refine Or.inr ⟨hr, ?_⟩
    rcases hd with ⟨ha, hb⟩ | ⟨ha, hb⟩ | ⟨ha, hb⟩
    · exact Or.inl ⟨ha, by rw [hb, h1]⟩
    · exact Or.inr (Or.inl ⟨ha, by rw [hb, h2]⟩)
    · exact Or.inr (Or.inr ⟨ha, hb⟩)

lemma listOrderedRun_out (mp : MsgpackIn) (sz : Nat) (cf : CdtFix)
    (st : CdtStats) (cmk : Bool) (eleCount : Nat) :
    ClassOutL cf st (listOrderedRun mp sz cf st cmk eleCount) := by
  simp only [listOrderedRun]
  split_ifs with h1 h2
  · exact classOutL_cannotfix _ _ _ _
  · unfold ClassOutL
    left
    refine ⟨rfl, Or.inr (Or.inr (Or.inr ?_))⟩
    simp [stInv]
  · exact listOrdLoop_out _ _ _ _ _ _ _

lemma mapOrderedRun_out (mp : MsgpackIn) (sz : Nat) (cf : CdtFix)
    (st : CdtStats) (cmk : Bool) (eleCount : Nat) :
    ClassOutM cf st (mapOrderedRun mp sz cf st cmk eleCount) := by
  simp only [mapOrderedRun]
  split_ifs with h1 h2 h3 h4
  · exact classOutM_cannotfix _ _ _ _
  · unfold ClassOutM
    left
    refine ⟨rfl, Or.inr (Or.inr (Or.inr (Or.inl ?_)))⟩
    simp [stInv]
  · exact classOutM_cannotfix _ _ _ _
  · unfold ClassOutM
    left
    refine ⟨rfl, Or.inr (Or.inr (Or.inr (Or.inl ?_)))⟩
    simp [stInv]
  · exact mapOrdLoop_out _ _ _ _ _ _ _ _

lemma scanCont_elim (P : Bool × CdtFix × CdtStats → Prop) (s : ScanRes)
    (g : MsgpackIn → Bool × CdtFix × CdtStats)
    (hexit : ∀ ret cf2 st2, s = ScanRes.exit ret cf2 st2 → P (ret, cf2, st2))
    (hok : ∀ mp2, s = ScanRes.ok mp2 → P (g mp2)) : P (scanCont s g) := by
  cases s with
  | exit ret cf2 st2 => exact hexit _ _ _ rfl
  | ok mp2 => exact hok _ rfl

lemma cdt_list_need_fix_out (buf : List Token) (sz : Nat) (cf : CdtFix)
    (st : CdtStats) (cmk : Bool) :
    ClassOutL cf st (cdt_list_need_fix buf sz cf st cmk) := by
  simp only [cdt_list_need_fix]
  cases hg : msgpack_get_list_ele_count ⟨buf.take sz, 0, false⟩ with
  | none =>
    unfold ClassOutL
    left
    refine ⟨rfl, Or.inr (Or.inl ?_)⟩
    simp [stCor]
  | some v =>
    obtain ⟨mp1, n⟩ := v
    dsimp only
    cases hx : msgpack_get_ext mp1 with
    | none =>
      dsimp only
      split_ifs
      all_goals first
        | exact classOutL_check_sz _ _ _ _ _ rfl
        | (unfold ClassOutL
           left
           refine ⟨rfl, Or.inr (Or.inl ?_)⟩
           simp [stCor]
           done)
        | (refine scanCont_elim _ _ _ ?_ ?_
           · intro ret cf2 st2 hs
             have hfacts : ret = false ∧
                 (st2 = stNs st ∨ st2 = stCor st ∨ st2 = stInv st) := by
               first
                 | exact listUnordScanCmk_exit _ _ _ _ _ _ _ hs
                 | exact listUnordScanFast_exit _ _ _ _ _ _ _ hs
             obtain ⟨hret, hst⟩ := hfacts
             unfold ClassOutL
             left
             refine ⟨hret, ?_⟩
             rcases hst with h | h | h
             · exact Or.inr (Or.inr (Or.inl h))
             · exact Or.inr (Or.inl h)
             · exact Or.inr (Or.inr (Or.inr h))
           · intro mp2 _
             exact classOutL_check_sz _ _ _ _ _ rfl)
    | some w =>
      obtain ⟨mp2, e1, e2⟩ := w
      dsimp only
      split_ifs
      all_goals first
        | exact classOutL_check_sz _ _ _ _ _ rfl
        | exact ClassOutL_of_flags _ _ _ _ (listOrderedRun_out _ _ _ _ _ _) rfl rfl
        | (unfold ClassOutL
           left
           refine ⟨rfl, Or.inr (Or.inl ?_)⟩
           simp [stCor]
           done)
        | (refine scanCont_elim _ _ _ ?_ ?_
           · intro ret cf2 st2 hs
             have hfacts : ret = false ∧
                 (st2 = stNs st ∨ st2 = stCor st ∨ st2 = stInv st) := by
               first
                 | exact listUnordScanCmk_exit _ _ _ _ _ _ _ hs
                 | exact listUnordScanFast_exit _ _ _ _ _ _ _ hs
             obtain ⟨hret, hst⟩ := hfacts
             unfold ClassOutL
             left
             refine ⟨hret, ?_⟩
             rcases hst with h | h | h
             · exact Or.inr (Or.inr (Or.inl h))
             · exact Or.inr (Or.inl h)
             · exact Or.inr (Or.inr (Or.inr h))
           · intro mp2 _
             exact classOutL_check_sz _ _ _ _ _ rfl)

lemma cdt_map_need_fix_out (buf : List Token) (sz : Nat) (cf : CdtFix)
    (st : CdtStats) (cmk : Bool) :
    ClassOutM cf st (cdt_map_need_fix buf sz cf st cmk) := by
  simp only [cdt_map_need_fix]
  cases hg : msgpack_get_map_ele_count ⟨buf.take sz, 0, false⟩ with
  | none =>
    unfold ClassOutM
    left
    refine ⟨rfl, Or.inr (Or.inl ?_)⟩
    simp [stCor]
  | some v =>
    obtain ⟨mp1, n⟩ := v
    dsimp only
    cases hx : msgpack_get_ext mp1 with
    | none =>
      dsimp only
      split_ifs
      all_goals first
        | exact classOutM_check_sz _ _ _ _ _ rfl
        | (unfold ClassOutM
           left
           refine ⟨rfl, Or.inr (Or.inl ?_)⟩
           simp [stCor]
           done)
        | (refine scanCont_elim _ _ _ ?_ ?_
           · intro ret cf2 st2 hs
             have hfacts : ret = false ∧
                 (st2 = stNs st ∨ st2 = stCor st ∨ st2 = stInv st) := by
               first
                 | exact mapUnordScanCmk_exit _ _ _ _ _ _ _ hs
                 | exact mapUnordScanFast_exit _ _ _ _ _ _ _ hs
             obtain ⟨hret, hst⟩ := hfacts
             unfold ClassOutM
             left
             refine ⟨hret, ?_⟩
             rcases hst with h | h | h
             · exact Or.inr (Or.inr (Or.inl h))
             · exact Or.inr (Or.inl h)
             · exact Or.inr (Or.inr (Or.inr (Or.inl h)))
           · intro mp2 _
             dsimp only
             split_ifs with hdup
             · unfold ClassOutM
               left
               refine ⟨rfl, Or.inr (Or.inr (Or.inr (Or.inr ?_)))⟩
               simp [stDup]
             · exact classOutM_check_sz _ _ _ _ _ rfl)
    | some w =>
      obtain ⟨mp2, e1, e2⟩ := w
      dsimp only
      split_ifs
      all_goals first
        | exact classOutM_check_sz _ _ _ _ _ rfl
        | exact ClassOutM_of_flags _ _ _ _ (mapOrderedRun_out _ _ _ _ _ _) rfl rfl
        | (unfold ClassOutM
           left
           refine ⟨rfl, Or.inr (Or.inl ?_)⟩
           simp [stCor]
           done)
        | (refine scanCont_elim _ _ _ ?_ ?_
           · intro ret cf2 st2 hs
             have hfacts : ret = false ∧
                 (st2 = stNs st ∨ st2 = stCor st ∨ st2 = stInv st) := by
               first
                 | exact mapUnordScanCmk_exit _ _ _ _ _ _ _ hs
                 | exact mapUnordScanFast_exit _ _ _ _ _ _ _ hs
             obtain ⟨hret, hst⟩ := hfacts
             unfold ClassOutM
             left
             refine ⟨hret, ?_⟩
             rcases hst with h | h | h
             · exact Or.inr (Or.inr (Or.inl h))
             · exact Or.inr (Or.inl h)
             · exact Or.inr (Or.inr (Or.inr (Or.inl h)))
           · intro mp2 _
             dsimp only
             split_ifs with hdup
             · unfold ClassOutM
               left
               refine ⟨rfl, Or.inr (Or.inr (Or.inr (Or.inr ?_)))⟩
               simp [stDup]
             · exact classOutM_check_sz _ _ _ _ _ rfl)

lemma ClassOutL_anyPattern (cf : CdtFix) (st : CdtStats)
    (r : Bool × CdtFix × CdtStats) (h : ClassOutL cf st r) : anyPattern st r.2.2 := by
  unfold ClassOutL at h
  unfold anyPattern
  rcases h with ⟨_, h | h | h | h⟩ | ⟨_, ⟨h, _⟩ | ⟨h, _⟩ | ⟨h, _⟩⟩ <;> tauto

lemma ClassOutM_anyPattern (cf : CdtFix) (st : CdtStats)
    (r : Bool × CdtFix × CdtStats) (h : ClassOutM cf st r) : anyPattern st r.2.2 := by
  unfold ClassOutM at h
  unfold anyPattern
  rcases h with ⟨_, h | h | h | h | h⟩ | ⟨_, ⟨h, _⟩ | ⟨h, _⟩ | ⟨h, _⟩⟩ <;> tauto

lemma anyPattern_facts (st st' : CdtStats) (h : anyPattern st st') :
    statUnfixInv st st' ∧ statLE st st' ∧
    st'.need_fix ≤ st.need_fix + 1 ∧ st'.cannot_fix ≤ st.cannot_fix + 1 ∧
    st'.need_fix + st'.cannot_fix ≤ st.need_fix + st.cannot_fix + 1 ∧
    st'.count = st.count ∧ st'.fixed = st.fixed ∧ st'.nf_failed = st.nf_failed := by
  unfold anyPattern at h
  rcases h with h | h | h | h | h | h | h | h <;> subst h <;>
    dsimp only [statUnfixInv, statLE, stPad, stCor, stNs, stDup, stInv, stOrd,
      stOrdPad] <;> omega

lemma cdt_need_fix_pattern (buf : List Token) (sz : Nat) (cf : CdtFix)
    (bc : BcStats) (cmk : Bool) :
    (anyPattern (bumpCount bc.cdt_list)
        (cdt_need_fix buf sz cf bc cmk).2.2.cdt_list ∧
      (cdt_need_fix buf sz cf bc cmk).2.2.cdt_map = bc.cdt_map) ∨
    (anyPattern (bumpCount bc.cdt_map)
        (cdt_need_fix buf sz cf bc cmk).2.2.cdt_map ∧
      (cdt_need_fix buf sz cf bc cmk).2.2.cdt_list = bc.cdt_list) ∨
    (cdt_need_fix buf sz cf bc cmk).2.2 = bc := by
  unfold cdt_need_fix
  cases hpeek : msgpack_buf_peek_type (buf.take sz) <;> dsimp only
  case list =>
    left
    exact ⟨ClassOutL_anyPattern _ _ _ (cdt_list_need_fix_out _ _ _ _ _), rfl⟩
  case map =>
    right; left
    exact ⟨ClassOutM_anyPattern _ _ _ (cdt_map_need_fix_out _ _ _ _ _), rfl⟩
  all_goals right; right; rfl

lemma cdt_fix_list_stats (binBuf : List Token) (binSize : Nat) (cf : CdtFix)
    (p q o : Bool) (st : CdtStats) (stop : Bool) :
    ((cdt_fix_list binBuf binSize cf p q o st stop).2.1 =
        { st with fixed := st.fixed + 1 } ∨
      (cdt_fix_list binBuf binSize cf p q o st stop).2.1 =
        { st with nf_failed := st.nf_failed + 1 }) ∧
    (cdt_fix_list binBuf binSize cf p q o st stop).2.2 = stop := by
  unfold cdt_fix_list
  split_ifs <;> simp

lemma statFacts_refl (st : CdtStats) : statUnfixInv st st ∧ statLE st st := by
  dsimp only [statUnfixInv, statLE]
  omega

lemma statFacts_fix (st st' : CdtStats)
    (h : st' = { st with fixed := st.fixed + 1 } ∨
      st' = { st with nf_failed := st.nf_failed + 1 }) :
    statUnfixInv st st' ∧ statLE st st' := by
  rcases h with h | h <;> subst h <;> dsimp only [statUnfixInv, statLE] <;> omega

lemma statFacts_class (st st' : CdtStats) (h : anyPattern (bumpCount st) st') :
    statUnfixInv st st' ∧ statLE st st' := by
  obtain ⟨h1, h2, _⟩ := anyPattern_facts _ _ h
  have hb1 : statUnfixInv st (bumpCount st) := by
    dsimp only [statUnfixInv, bumpCount]
  have hb2 : statLE st (bumpCount st) := by
    dsimp only [statLE, bumpCount]
    omega
  refine ⟨?_, ?_⟩
  · dsimp only [statUnfixInv] at *
    omega
  · dsimp only [statLE] at *
    omega

lemma cdt_need_fix_stats (buf : List Token) (sz : Nat) (cf : CdtFix)
    (bc : BcStats) (cmk : Bool) :
    (statUnfixInv bc.cdt_list (cdt_need_fix buf sz cf bc cmk).2.2.cdt_list ∧
      statLE bc.cdt_list (cdt_need_fix buf sz cf bc cmk).2.2.cdt_list) ∧
    (statUnfixInv bc.cdt_map (cdt_need_fix buf sz cf bc cmk).2.2.cdt_map ∧
      statLE bc.cdt_map (cdt_need_fix buf sz cf bc cmk).2.2.cdt_map) := by
  rcases cdt_need_fix_pattern buf sz cf bc cmk with ⟨hp, hm⟩ | ⟨hp, hm⟩ | hid
  · exact ⟨statFacts_class _ _ hp, by rw [hm]; exact statFacts_refl _⟩
  · exact ⟨by rw [hm]; exact statFacts_refl _, statFacts_class _ _ hp⟩
  · rw [hid]
    exact ⟨statFacts_refl _, statFacts_refl _⟩

lemma cdt_check_bin_shape (btype : AsBytesType) (buf : List Token)
    (bc : BcStats) (e cmk p q o : Bool) (stop : Bool) :
    (cdt_check_bin btype buf bc e cmk p q o stop).2.1.cdt_map =
      (cdt_need_fix buf buf.length cdtFix0 bc cmk).2.2.cdt_map ∧
    ((cdt_check_bin btype buf bc e cmk p q o stop).2.1.cdt_list =
        (cdt_need_fix buf buf.length cdtFix0 bc cmk).2.2.cdt_list ∨
      (cdt_check_bin btype buf bc e cmk p q o stop).2.1.cdt_list =
        { (cdt_need_fix buf buf.length cdtFix0 bc cmk).2.2.cdt_list with
            fixed := (cdt_need_fix buf buf.length cdtFix0 bc cmk).2.2.cdt_list.fixed + 1 } ∨
      (cdt_check_bin btype buf bc e cmk p q o stop).2.1.cdt_list =
        { (cdt_need_fix buf buf.length cdtFix0 bc cmk).2.2.cdt_list with
            nf_failed := (cdt_need_fix buf buf.length cdtFix0 bc cmk).2.2.cdt_list.nf_failed + 1 }) := by
  unfold cdt_check_bin
  dsimp only
  split_ifs <;> cases btype <;> dsimp only <;>
    first
      | exact ⟨rfl, Or.inl rfl⟩
      | (refine ⟨rfl, ?_⟩
         rcases (cdt_fix_list_stats buf buf.length
             (cdt_need_fix buf buf.length cdtFix0 bc cmk).2.1 p q o
             (cdt_need_fix buf buf.length cdtFix0 bc cmk).2.2.cdt_list stop).1 with h | h
         · exact Or.inr (Or.inl h)
         · exact Or.inr (Or.inr h))

lemma cdt_check_bin_stats (btype : AsBytesType) (buf : List Token)
    (bc : BcStats) (e cmk p q o : Bool) (stop : Bool) :
    (statUnfixInv bc.cdt_list
        (cdt_check_bin btype buf bc e cmk p q o stop).2.1.cdt_list ∧
      statLE bc.cdt_list (cdt_check_bin btype buf bc e cmk p q o stop).2.1.cdt_list) ∧
    (statUnfixInv bc.cdt_map
        (cdt_check_bin btype buf bc e cmk p q o stop).2.1.cdt_map ∧
      statLE bc.cdt_map (cdt_check_bin btype buf bc e cmk p q o stop).2.1.cdt_map) := by
  obtain ⟨hmapEq, hlist⟩ := cdt_check_bin_shape btype buf bc e cmk p q o stop
  obtain ⟨⟨hl1, hl2⟩, ⟨hm1, hm2⟩⟩ := cdt_need_fix_stats buf buf.length cdtFix0 bc cmk
  constructor
  · have hstep : statUnfixInv (cdt_need_fix buf buf.length cdtFix0 bc cmk).2.2.cdt_list
        (cdt_check_bin btype buf bc e cmk p q o stop).2.1.cdt_list ∧
        statLE (cdt_need_fix buf buf.length cdtFix0 bc cmk).2.2.cdt_list
          (cdt_check_bin btype buf bc e cmk p q o stop).2.1.cdt_list := by
      rcases hlist with h | h | h
      · rw [h]
        exact statFacts_refl _
      · exact statFacts_fix _ _ (Or.inl h)
      · exact statFacts_fix _ _ (Or.inr h)
    constructor
    · dsimp only [statUnfixInv] at *
      omega
    · dsimp only [statLE] at *
      omega
  · rw [hmapEq]
    exact ⟨hm1, hm2⟩

/-- C2 (amended): `need_log` is set on every anomaly except the overrun
branches: the padding branch of `cdt_check_sz` sets it, every
`cdt_check_set_cannotfix` exit sets it, and a record containing a bin whose
classification requests a fix is logged; but the overrun branch of
`cdt_check_sz` (final offset strictly greater than the declared size)
increments `cannot_fix`/`cf_corrupt` while leaving the classification
record - and hence `need_log` - untouched. -/
theorem c2_mustlog_anomalies :
    (∀ (mp : MsgpackIn) (sz : Nat) (cf : CdtFix) (st : CdtStats),
      mp.offset < sz → (cdt_check_sz mp sz cf st).2.1.need_log = true) ∧
    (∀ (mp : MsgpackIn) (sz : Nat) (cf : CdtFix) (st : CdtStats),
      sz < mp.offset → cdt_check_sz mp sz cf st = (false, cf, stCor st)) ∧
    (∀ (mp : MsgpackIn) (cf : CdtFix) (st : CdtStats),
      (cdt_check_set_cannotfix mp cf st).1.need_log = true) ∧
    (∀ (btype : AsBytesType) (buf : List Token) (bc : BcStats)
      (e cmk p q o stop : Bool),
      (cdt_need_fix buf buf.length cdtFix0 bc cmk).1 = true →
      (cdt_check_bin btype buf bc e cmk p q o stop).1 = true) := by
  refine ⟨?_, ?_, ?_, ?_⟩
  · intro mp sz cf st h
    unfold cdt_check_sz
    rw [if_pos h]
  · intro mp sz cf st h
    unfold cdt_check_sz
    rw [if_neg (by omega), if_pos h]
    rfl
  · intro mp cf st
    rfl
  · intro btype buf bc e cmk p q o stop h
    unfold cdt_check_bin
    dsimp only
    rw [h]
    split_ifs <;> first | rfl | (cases btype <;> rfl) | (exfalso; assumption)

/-- C2 counterexample: with a final offset of 3 against a declared size of
2 (overrun corruption), `cdt_check_sz` counts an unfixable-corrupt anomaly
but does not set the classification's `need_log` flag, contradicting the
claim that `mustLog` is set for every anomaly. -/
theorem c2_mustlog_counterexample :
    (cdt_check_sz ⟨[], 3, false⟩ 2 cdtFix0 cdtStats0).2.2.cannot_fix = 1 ∧
    (cdt_check_sz ⟨[], 3, false⟩ 2 cdtFix0 cdtStats0).2.2.cf_corrupt = 1 ∧
    (cdt_check_sz ⟨[], 3, false⟩ 2 cdtFix0 cdtStats0).2.1.need_log = false := by
  decide

/-- C2 witness: the amended statement applied at concrete inputs. -/
theorem c2_mustlog_witness :
    (cdt_check_sz ⟨[], 1, false⟩ 2 cdtFix0 cdtStats0).2.1.need_log = true ∧
    cdt_check_sz ⟨[], 3, false⟩ 2 cdtFix0 cdtStats0 =
      (false, cdtFix0, stCor cdtStats0) ∧
    (cdt_check_set_cannotfix ⟨[], 0, false⟩ cdtFix0 cdtStats0).1.need_log = true ∧
    (cdt_check_bin AsBytesType.list [Token.listHdr 1, Token.int 5, Token.int 7]
      bcStats0 false false true true true false).1 = true := by
  refine ⟨c2_mustlog_anomalies.1 _ _ _ _ (by decide),
    c2_mustlog_anomalies.2.1 _ _ _ _ (by decide),
    c2_mustlog_anomalies.2.2.1 _ _ _,
    c2_mustlog_anomalies.2.2.2 _ _ _ _ _ _ _ _ _ (by decide)⟩

/-- C3: when the element walk's final offset is strictly below the declared
size, the bin is classified a repairable padding defect with recorded
padding length exactly `size - offset` (and `need_fix`/`nf_padding`
incremented); when it is strictly above, the bin is classified
unfixable-corrupt; and the padding-only repair truncates exactly
`paddingLength` bytes, so the written value's size equals the walk's
consumed length. -/
theorem c3_padding_defect_and_truncation :
    (∀ (mp : MsgpackIn) (sz : Nat) (cf : CdtFix) (st : CdtStats),
      mp.offset < sz →
      cdt_check_sz mp sz cf st =
        (true, { cf with need_log := true, nf_padding := sz - mp.offset },
         stPad st)) ∧
    (∀ (mp : MsgpackIn) (sz : Nat) (cf : CdtFix) (st : CdtStats),
      sz < mp.offset → cdt_check_sz mp sz cf st = (false, cf, stCor st)) ∧
    (∀ (binBuf : List Token) (mp : MsgpackIn) (sz : Nat) (cf : CdtFix)
      (st stat : CdtStats) (p q o stop : Bool),
      mp.offset < sz → cf.nf_list_order = false →
      (cdt_fix_list binBuf sz (cdt_check_sz mp sz cf st).2.1 p q o stat stop).1 =
        [WriteCall.keyPut mp.offset]) := by
  refine ⟨?_, ?_, ?_⟩
  · intro mp sz cf st h
    unfold cdt_check_sz
    rw [if_pos h]
    rfl
  · intro mp sz cf st h
    unfold cdt_check_sz
    rw [if_neg (by omega), if_pos h]
    rfl
  · intro binBuf mp sz cf st stat p q o stop h1 h2
    have hcf : (cdt_check_sz mp sz cf st).2.1 =
        { cf with need_log := true, nf_padding := sz - mp.offset } := by
      unfold cdt_check_sz
      rw [if_pos h1]
    rw [hcf]
    unfold cdt_fix_list
    rw [if_pos (And.intro h2 (by dsimp only; omega))]
    have hsz : sz - (sz - mp.offset) = mp.offset := by omega
    dsimp only
    rw [hsz]
    split_ifs <;> rfl

/-- C3 witness: a one-element list with one trailing token is classified as
a padding defect of length 1; the overrun branch and the truncating repair
evaluated at the same concrete inputs. -/
theorem c3_padding_witness :
    cdt_check_sz ⟨[Token.listHdr 1, Token.int 5, Token.int 7], 2, false⟩ 3
        cdtFix0 cdtStats0 =
      (true, { cdtFix0 with need_log := true, nf_padding := 1 }, stPad cdtStats0) ∧
    cdt_check_sz ⟨[], 3, false⟩ 1 cdtFix0 cdtStats0 =
      (false, cdtFix0, stCor cdtStats0) ∧
    (cdt_fix_list [Token.listHdr 1, Token.int 5, Token.int 7] 3
      (cdt_check_sz ⟨[Token.listHdr 1, Token.int 5, Token.int 7], 2, false⟩ 3
        cdtFix0 cdtStats0).2.1 true true true cdtStats0 false).1 =
      [WriteCall.keyPut 2] := by
  refine ⟨?_, c3_padding_defect_and_truncation.2.1 _ _ _ _ (by decide), ?_⟩
  · have h := c3_padding_defect_and_truncation.1
      ⟨[Token.listHdr 1, Token.int 5, Token.int 7], 2, false⟩ 3 cdtFix0 cdtStats0
      (by decide)
    simpa using h
  · exact c3_padding_defect_and_truncation.2.2 _
      ⟨[Token.listHdr 1, Token.int 5, Token.int 7], 2, false⟩ 3 cdtFix0
      cdtStats0 cdtStats0 true true true false (by decide) (by decide)

/-- C5 (amended): per bin processed, the growth of each stats instance's
`cannot_fix` equals the combined growth of `cf_nonstorage`, `cf_corrupt`
and `cf_dupkey` (invalid-key detections increment `cf_invalidkey` without
`cannot_fix`), and every counter of both instances is monotonically
non-decreasing. -/
theorem c5_unfixable_subdivision_invariant :
    ∀ (btype : AsBytesType) (buf : List Token) (bc : BcStats)
      (e cmk p q o stop : Bool),
      (statUnfixInv bc.cdt_list
          (cdt_check_bin btype buf bc e cmk p q o stop).2.1.cdt_list ∧
        statUnfixInv bc.cdt_map
          (cdt_check_bin btype buf bc e cmk p q o stop).2.1.cdt_map) ∧
      (statLE bc.cdt_list
          (cdt_check_bin btype buf bc e cmk p q o stop).2.1.cdt_list ∧
        statLE bc.cdt_map
          (cdt_check_bin btype buf bc e cmk p q o stop).2.1.cdt_map) := by
  intro btype buf bc e cmk p q o stop
  obtain ⟨⟨h1, h2⟩, ⟨h3, h4⟩⟩ := cdt_check_bin_stats btype buf bc e cmk p q o stop
  exact ⟨⟨h1, h3⟩, ⟨h2, h4⟩⟩

/-- C5 counterexample: an unordered map whose only key is invalid (`nil`)
increments `cf_invalidkey` without incrementing `cannot_fix`, so starting
from zero counters `cannot_fix` (0) differs from
`cf_nonstorage + cf_corrupt + cf_dupkey + cf_invalidkey` (1), refuting the
claimed four-way subdivision identity. -/
theorem c5_unfixable_subdivision_counterexample :
    (cdt_map_need_fix [Token.mapHdr 1, Token.nil, Token.int 1] 3 cdtFix0
      cdtStats0 true).2.2.cf_invalidkey = 1 ∧
    (cdt_map_need_fix [Token.mapHdr 1, Token.nil, Token.int 1] 3 cdtFix0
      cdtStats0 true).2.2.cannot_fix = 0 := by
  decide

/-- C10: one classification increments `need_fix` at most once and
`cannot_fix` at most once across both stats instances, and never both; and
a bin classified with both an order defect and trailing padding gets
exactly one `need_fix`, one `nf_order` and one `nf_padding` increment. -/
theorem c10_at_most_one_increment :
    ∀ (buf : List Token) (sz : Nat) (bc : BcStats) (st : CdtStats) (cmk : Bool),
      ((cdt_need_fix buf sz cdtFix0 bc cmk).2.2.cdt_list.need_fix +
          (cdt_need_fix buf sz cdtFix0 bc cmk).2.2.cdt_map.need_fix ≤
        bc.cdt_list.need_fix + bc.cdt_map.need_fix + 1) ∧
      ((cdt_need_fix buf sz cdtFix0 bc cmk).2.2.cdt_list.cannot_fix +
          (cdt_need_fix buf sz cdtFix0 bc cmk).2.2.cdt_map.cannot_fix ≤
        bc.cdt_list.cannot_fix + bc.cdt_map.cannot_fix + 1) ∧
      ((cdt_need_fix buf sz cdtFix0 bc cmk).2.2.cdt_list.need_fix +
          (cdt_need_fix buf sz cdtFix0 bc cmk).2.2.cdt_map.need_fix +
          (cdt_need_fix buf sz cdtFix0 bc cmk).2.2.cdt_list.cannot_fix +
          (cdt_need_fix buf sz cdtFix0 bc cmk).2.2.cdt_map.cannot_fix ≤
        bc.cdt_list.need_fix + bc.cdt_map.need_fix +
          bc.cdt_list.cannot_fix + bc.cdt_map.cannot_fix + 1) ∧
      ((cdt_list_need_fix buf sz cdtFix0 st cmk).1 = true →
        (cdt_list_need_fix buf sz cdtFix0 st cmk).2.1.nf_list_order = true →
        (cdt_list_need_fix buf sz cdtFix0 st cmk).2.1.nf_padding ≠ 0 →
        (cdt_list_need_fix buf sz cdtFix0 st cmk).2.2 = stOrdPad st) ∧
      ((cdt_map_need_fix buf sz cdtFix0 st cmk).1 = true →
        (cdt_map_need_fix buf sz cdtFix0 st cmk).2.1.nf_map_order = true →
        (cdt_map_need_fix buf sz cdtFix0 st cmk).2.1.nf_padding ≠ 0 →
        (cdt_map_need_fix buf sz cdtFix0 st cmk).2.2 = stOrdPad st) := by
  intro buf sz bc st cmk
  have hcnt : ∀ a : CdtStats, (bumpCount a).need_fix = a.need_fix ∧
      (bumpCount a).cannot_fix = a.cannot_fix := by
    intro a
    exact ⟨rfl, rfl⟩
  refine ⟨?_, ?_, ?_, ?_, ?_⟩
  case _ =>
    rcases cdt_need_fix_pattern buf sz cdtFix0 bc cmk with ⟨hp, hm⟩ | ⟨hp, hm⟩ | hid
    · obtain ⟨-, -, h3, -, -, -⟩ := anyPattern_facts _ _ hp
      rw [hm]
      have := (hcnt bc.cdt_list).1
      omega
    · obtain ⟨-, -, h3, -, -, -⟩ := anyPattern_facts _ _ hp
      rw [hm]
      have := (hcnt bc.cdt_map).1
      omega
    · rw [hid]
      omega
  case _ =>
    rcases cdt_need_fix_pattern buf sz cdtFix0 bc cmk with ⟨hp, hm⟩ | ⟨hp, hm⟩ | hid
    · obtain ⟨-, -, -, h4, -, -⟩ := anyPattern_facts _ _ hp
      rw [hm]
      have := (hcnt bc.cdt_list).2
      omega
    · obtain ⟨-, -, -, h4, -, -⟩ := anyPattern_facts _ _ hp
      rw [hm]
      have := (hcnt bc.cdt_map).2
      omega
    · rw [hid]
      omega
  case _ =>
    rcases cdt_need_fix_pattern buf sz cdtFix0 bc cmk with ⟨hp, hm⟩ | ⟨hp, hm⟩ | hid
    · obtain ⟨-, -, -, -, h5, -⟩ := anyPattern_facts _ _ hp
      rw [hm]
      have h6 := (hcnt bc.cdt_list).1
      have h7 := (hcnt bc.cdt_list).2
      omega
    · obtain ⟨-, -, -, -, h5, -⟩ := anyPattern_facts _ _ hp
      rw [hm]
      have h6 := (hcnt bc.cdt_map).1
      have h7 := (hcnt bc.cdt_map).2
      omega
    · rw [hid]
      omega
  case _ =>
    intro h1 h2 h3
    rcases cdt_list_need_fix_out buf sz cdtFix0 st cmk with ⟨hf, -⟩ |
      ⟨-, ⟨-, hflag⟩ | ⟨-, hpad⟩ | ⟨hst, -⟩⟩
    · rw [h1] at hf
      exact absurd hf (by simp)
    · rw [h2] at hflag
      exact absurd hflag.symm (by decide)
    · rw [hpad] at h3
      exact absurd rfl h3
    · exact hst
  case _ =>
    intro h1 h2 h3
    rcases cdt_map_need_fix_out buf sz cdtFix0 st cmk with ⟨hf, -⟩ |
      ⟨-, ⟨-, hflag⟩ | ⟨-, hpad⟩ | ⟨hst, -⟩⟩
    · rw [h1] at hf
      exact absurd hf (by simp)
    · rw [h2] at hflag
      exact absurd hflag.symm (by decide)
    · rw [hpad] at h3
      exact absurd rfl h3
    · exact hst

/-- C10 witness: an ordered list with an out-of-order element and one
trailing token hits the order-with-padding branch; the exactness clause of
the theorem applies there. -/
theorem c10_at_most_one_increment_witness :
    (cdt_list_need_fix [Token.listHdr 4, Token.ext 0 0, Token.int 5,
        Token.int 3, Token.int 9, Token.int 7] 6 cdtFix0 cdtStats0 false).2.2 =
      stOrdPad cdtStats0 := by
  exact (c10_at_most_one_increment [Token.listHdr 4, Token.ext 0 0, Token.int 5,
    Token.int 3, Token.int 9, Token.int 7] 6 bcStats0 cdtStats0
    false).2.2.2.1 (by decide) (by decide) (by decide)

/-- C6 (amended): a bin whose first value peeks as a list (respectively map)
but whose element count cannot be decoded is classified unfixable-corrupt
with `cannot_fix` and `cf_corrupt` incremented and no fix requested; a bin
peeking as any other type is skipped entirely - no counters change and no
fix is requested. -/
theorem c6_header_parse_failure :
    (∀ (buf : List Token) (sz : Nat) (cf : CdtFix) (bc : BcStats) (cmk : Bool),
      msgpack_buf_peek_type (buf.take sz) = MType.list →
      msgpack_get_list_ele_count ⟨buf.take sz, 0, false⟩ = none →
      cdt_need_fix buf sz cf bc cmk =
        (false, { cf with need_log := true },
         { bc with cdt_list :=
            { bc.cdt_list with
              count := bc.cdt_list.count + 1,
              cannot_fix := bc.cdt_list.cannot_fix + 1,
              cf_corrupt := bc.cdt_list.cf_corrupt + 1 } })) ∧
    (∀ (buf : List Token) (sz : Nat) (cf : CdtFix) (bc : BcStats) (cmk : Bool),
      msgpack_buf_peek_type (buf.take sz) = MType.map →
      msgpack_get_map_ele_count ⟨buf.take sz, 0, false⟩ = none →
      cdt_need_fix buf sz cf bc cmk =
        (false, { cf with need_log := true },
         { bc with cdt_map :=
            { bc.cdt_map with
              count := bc.cdt_map.count + 1,
              cannot_fix := bc.cdt_map.cannot_fix + 1,
              cf_corrupt := bc.cdt_map.cf_corrupt + 1 } })) ∧
    (∀ (buf : List Token) (sz : Nat) (cf : CdtFix) (bc : BcStats) (cmk : Bool),
      msgpack_buf_peek_type (buf.take sz) ≠ MType.list →
      msgpack_buf_peek_type (buf.take sz) ≠ MType.map →
      cdt_need_fix buf sz cf bc cmk = (false, cf, bc)) := by
  refine ⟨?_, ?_, ?_⟩
  · intro buf sz cf bc cmk hpeek hcnt
    unfold cdt_need_fix
    rw [hpeek]
    dsimp only
    simp only [cdt_list_need_fix]
    rw [hcnt]
  · intro buf sz cf bc cmk hpeek hcnt
    unfold cdt_need_fix
    rw [hpeek]
    dsimp only
    simp only [cdt_map_need_fix]
    rw [hcnt]
  · intro buf sz cf bc cmk h1 h2
    unfold cdt_need_fix
    cases hpeek : msgpack_buf_peek_type (buf.take sz) <;>
      first | rfl | (exact absurd hpeek h1) | (exact absurd hpeek h2)

/-- C6 counterexample: a bin whose value is a plain integer cannot be
parsed as a list or map header, yet classification changes no counters and
classifies nothing, contradicting the claimed unfixable-corrupt outcome. -/
theorem c6_header_parse_counterexample :
    cdt_need_fix [Token.int 5] 1 cdtFix0 bcStats0 false =
      (false, cdtFix0, bcStats0) ∧
    bcStats0.cdt_list.cf_corrupt = 0 ∧ bcStats0.cdt_map.cf_corrupt = 0 ∧
    bcStats0.cdt_list.cannot_fix = 0 ∧ bcStats0.cdt_map.cannot_fix = 0 := by
  decide

/-- C6 witness: the amended statement applied to a truncated list header, a
truncated map header and an integer-typed bin. -/
theorem c6_header_parse_witness :
    cdt_need_fix [Token.listHdrTrunc] 1 cdtFix0 bcStats0 false =
      (false, { cdtFix0 with need_log := true },
       { bcStats0 with cdt_list :=
          { cdtStats0 with count := 1, cannot_fix := 1, cf_corrupt := 1 } }) ∧
    cdt_need_fix [Token.mapHdrTrunc] 1 cdtFix0 bcStats0 false =
      (false, { cdtFix0 with need_log := true },
       { bcStats0 with cdt_map :=
          { cdtStats0 with count := 1, cannot_fix := 1, cf_corrupt := 1 } }) ∧
    cdt_need_fix [Token.int 5] 1 cdtFix0 bcStats0 false =
      (false, cdtFix0, bcStats0) := by
  refine ⟨?_, ?_, ?_⟩
  · have h := c6_header_parse_failure.1 [Token.listHdrTrunc] 1 cdtFix0 bcStats0
      false (by decide) (by decide)
    simpa using h
  · have h := c6_header_parse_failure.2.1 [Token.mapHdrTrunc] 1 cdtFix0 bcStats0
      false (by decide) (by decide)
    simpa using h
  · exact c6_header_parse_failure.2.2 [Token.int 5] 1 cdtFix0 bcStats0 false
      (by decide) (by decide)

/-- C7: for a list bin with an order defect the repair is a single operate
call that clears the bin and re-appends exactly the recorded element count
from the recorded content as an ordered list with
add-unique/no-fail/partial write semantics; a failing repair write (or
failing padding-only overwrite) increments `nf_failed` and never sets the
stop flag; and a map-typed bin never causes any repair write, even with
fixing enabled. -/
theorem c7_list_repair_map_never :
    (∀ (binBuf : List Token) (binSize : Nat) (cf : CdtFix) (q o : Bool)
      (st : CdtStats) (stop : Bool), cf.nf_list_order = true →
      cdt_fix_list binBuf binSize cf true q o st stop =
        ([WriteCall.keyOperate true cf.ele_count
            ((binBuf.drop cf.contents).take cf.content_sz) true true true true],
         (if o then { st with fixed := st.fixed + 1 }
          else { st with nf_failed := st.nf_failed + 1 }), stop)) ∧
    (∀ (binBuf : List Token) (binSize : Nat) (cf : CdtFix) (p q o : Bool)
      (st : CdtStats) (stop : Bool),
      cf.nf_list_order = false → cf.nf_padding ≠ 0 →
      cdt_fix_list binBuf binSize cf p q o st stop =
        ([WriteCall.keyPut (binSize - cf.nf_padding)],
         (if q then { st with fixed := st.fixed + 1 }
          else { st with nf_failed := st.nf_failed + 1 }), stop)) ∧
    (∀ (binBuf : List Token) (binSize : Nat) (cf : CdtFix) (q o : Bool)
      (st : CdtStats) (stop : Bool), cf.nf_list_order = true →
      cdt_fix_list binBuf binSize cf false q o st stop =
        ([], { st with nf_failed := st.nf_failed + 1 }, stop)) ∧
    (∀ (buf : List Token) (bc : BcStats) (e cmk p q o stop : Bool),
      (cdt_check_bin AsBytesType.map buf bc e cmk p q o stop).2.2.1 = [] ∧
      (cdt_check_bin AsBytesType.map buf bc e cmk p q o stop).2.2.2 = stop) := by
  refine ⟨?_, ?_, ?_, ?_⟩
  · intro binBuf binSize cf q o st stop h
    unfold cdt_fix_list
    rw [if_neg (by rw [h]; simp)]
    rw [if_neg (by simp)]
    split_ifs with ho <;> rfl
  · intro binBuf binSize cf p q o st stop h1 h2
    unfold cdt_fix_list
    rw [if_pos ⟨h1, h2⟩]
    split_ifs with hq <;> rfl
  · intro binBuf binSize cf q o st stop h
    unfold cdt_fix_list
    rw [if_neg (by rw [h]; simp)]
    rw [if_pos rfl]
  · intro buf bc e cmk p q o stop
    unfold cdt_check_bin
    dsimp only
    split_ifs <;> exact ⟨rfl, rfl⟩

/-- C7 witness: the repair operation built for an order-defective list with
recorded element count 3 and contents at offset 2, an operate failure, a
put failure, a pack failure, and a map bin with fixing enabled. -/
theorem c7_list_repair_map_never_witness :
    cdt_fix_list [Token.listHdr 4, Token.ext 0 0, Token.int 5, Token.int 3,
        Token.int 9] 5
        { cdtFix0 with
          nf_list_order := true, ele_count := 3, contents := 2,
          content_sz := 3 } true true false cdtStats0 false =
      ([WriteCall.keyOperate true 3 [Token.int 5, Token.int 3, Token.int 9]
          true true true true],
       { cdtStats0 with nf_failed := 1 }, false) ∧
    cdt_fix_list [Token.listHdr 1, Token.int 5, Token.int 7] 3
        { cdtFix0 with nf_padding := 1 } true false true cdtStats0 false =
      ([WriteCall.keyPut 2], { cdtStats0 with nf_failed := 1 }, false) ∧
    cdt_fix_list [] 0 { cdtFix0 with nf_list_order := true } false true true
        cdtStats0 false =
      ([], { cdtStats0 with nf_failed := 1 }, false) ∧
    (cdt_check_bin AsBytesType.map [Token.mapHdr 2, Token.int 1, Token.int 9,
        Token.int 1, Token.int 8] bcStats0 true false true true true
        false).2.2.1 = [] := by
  refine ⟨?_, ?_, ?_, ?_⟩
  · have h := c7_list_repair_map_never.1 [Token.listHdr 4, Token.ext 0 0,
      Token.int 5, Token.int 3, Token.int 9] 5
      { cdtFix0 with
        nf_list_order := true, ele_count := 3, contents := 2,
        content_sz := 3 } true false cdtStats0 false (by decide)
    simpa using h
  · have h := c7_list_repair_map_never.2.1 [Token.listHdr 1, Token.int 5,
      Token.int 7] 3 { cdtFix0 with nf_padding := 1 } true false true
      cdtStats0 false (by decide) (by decide)
    simpa using h
  · have h := c7_list_repair_map_never.2.2.1 [] 0
      { cdtFix0 with nf_list_order := true } true true cdtStats0 false
      (by decide)
    simpa using h
  · exact (c7_list_repair_map_never.2.2.2 [Token.mapHdr 2, Token.int 1,
      Token.int 9, Token.int 1, Token.int 8] bcStats0 true false true true
      true false).1
lemma restoreLoop_attempts_le (env : RestoreEnv) (status : Nat → AsStatus) :
    ∀ remaining tries backoff stop cnt sleeps,
      (restoreLoop env status remaining tries backoff stop cnt sleeps).2.2.2 ≤
        tries + remaining := by
  intro remaining
  induction remaining with
  | zero => intro tries backoff stop cnt sleeps; simp [restoreLoop]
  | succ r ih =>
    intro tries backoff stop cnt sleeps
    simp only [restoreLoop]
    by_cases h1 : stop = true
    · rw [if_pos h1]; dsimp only; omega
    · rw [if_neg h1]
      cases hst : status tries <;> dsimp only <;>
        first
          | omega
          | (split_ifs with hr <;>
              first
                | (dsimp only; omega)
                | (exact le_trans (ih _ _ _ _ _) (by omega)))

lemma restoreLoop_overload (env : RestoreEnv) (status : Nat → AsStatus)
    (hst : ∀ i, status i = AsStatus.errDeviceOverload) :
    ∀ r tries backoff cnt sleeps,
      restoreLoop env status (r + 1) tries backoff false cnt sleeps =
        ({ cnt with backoffCount := cnt.backoffCount + r }, true,
         sleeps ++ (List.range r).map (fun i => backoff * 2 ^ i), tries + r + 1) := by
  intro r
  induction r with
  | zero =>
    intro tries backoff cnt sleeps
    simp [restoreLoop, hst tries]
  | succ r ih =>
    intro tries backoff cnt sleeps
    rw [restoreLoop, if_neg (by simp), hst tries]
    dsimp only
    rw [if_neg (by omega : ¬(r + 1 = 0))]
    rw [ih (tries + 1) (backoff * 2) _ (sleeps ++ [backoff])]
    have hmap : (List.range (r + 1)).map (fun i => backoff * 2 ^ i) =
        backoff :: (List.range r).map (fun i => backoff * 2 * 2 ^ i) := by
      rw [List.range_succ_eq_map, List.map_cons, List.map_map]
      have hf : ((fun i => backoff * 2 ^ i) ∘ Nat.succ) =
          (fun i => backoff * 2 * 2 ^ i) := by
        funext i
        simp only [Function.comp, pow_succ]
        ring
      rw [hf]
      simp
    rw [hmap]
    simp only [List.append_assoc, List.singleton_append, Prod.mk.injEq,
      RestoreCounters.mk.injEq]
    refine ⟨⟨trivial, trivial, trivial, trivial, by omega⟩, trivial, trivial, by omega⟩

lemma restoreLoop_other (env : RestoreEnv) (status : Nat → AsStatus)
    (hst : ∀ i, status i = AsStatus.errOther) :
    ∀ r tries backoff cnt sleeps,
      restoreLoop env status (r + 1) tries backoff false cnt sleeps =
        (cnt, true, sleeps ++ List.replicate r 1000000, tries + r + 1) := by
  intro r
  induction r with
  | zero =>
    intro tries backoff cnt sleeps
    simp [restoreLoop, hst tries]
  | succ r ih =>
    intro tries backoff cnt sleeps
    rw [restoreLoop, if_neg (by simp), hst tries]
    dsimp only
    rw [if_neg (by omega : ¬(r + 1 = 0))]
    rw [ih (tries + 1) env.initialBackoffUs cnt (sleeps ++ [1000000])]
    simp only [List.append_assoc, List.singleton_append, ← List.replicate_succ,
      Prod.mk.injEq]
    exact ⟨trivial, trivial, trivial, by omega⟩

/-- C9: the restore write loop's retry discipline.  The claim is **partly
right and partly wrong**: fatal-class errors (server full, role violation)
do set the stop flag on the first attempt, generation-conflict and
already-exists results are counted once with no retry, device-overload
errors are retried with exponentially doubling backoff and any exhaustion
of the attempt budget sets the stop flag, and plain transient errors are
retried with the fixed one-second backoff.  But the record-specific errors
(such as record-too-big) are **not** retried at all: they are counted once
and the loop breaks after a single attempt (stopping the run unless the
ignore-record-errors mode is set), contradicting the claim's "any other
error is retried up to the fixed maximum attempt count".  This theorem
proves the amended description; the counterexample theorem refutes the
frozen wording. -/
theorem c9_retry_loop_discipline (env : RestoreEnv) (status : Nat → AsStatus)
    (hmt : 1 ≤ env.maxTries) :
    (restoreRecordWrite env status).2.2.2 ≤ env.maxTries ∧
    (status 0 = AsStatus.errServerFull →
      restoreRecordWrite env status = (restoreCounters0, true, [], 1)) ∧
    (status 0 = AsStatus.roleViolation →
      restoreRecordWrite env status = (restoreCounters0, true, [], 1)) ∧
    (status 0 = AsStatus.errGeneration →
      restoreRecordWrite env status =
        ({ restoreCounters0 with fresher := 1 }, false, [], 1)) ∧
    (status 0 = AsStatus.errExists →
      restoreRecordWrite env status =
        ({ restoreCounters0 with existed := 1 }, false, [], 1)) ∧
    (status 0 = AsStatus.ok →
      restoreRecordWrite env status =
        ({ restoreCounters0 with inserted := 1 }, false, [], 1)) ∧
    (status 0 = AsStatus.errRecordTooBig →
      restoreRecordWrite env status =
        ({ restoreCounters0 with ignored := 1 },
         if env.ignoreRecError then false else true, [], 1)) ∧
    ((∀ i, status i = AsStatus.errDeviceOverload) →
      restoreRecordWrite env status =
        ({ restoreCounters0 with backoffCount := env.maxTries - 1 }, true,
         (List.range (env.maxTries - 1)).map
           (fun i => env.initialBackoffUs * 2 ^ i),
         env.maxTries)) ∧
    ((∀ i, status i = AsStatus.errOther) →
      restoreRecordWrite env status =
        (restoreCounters0, true,
         List.replicate (env.maxTries - 1) 1000000, env.maxTries)) := by
  obtain ⟨m, hm⟩ : ∃ m, env.maxTries = m + 1 := ⟨env.maxTries - 1, by omega⟩
  refine ⟨?_, ?_, ?_, ?_, ?_, ?_, ?_, ?_, ?_⟩
  · have h := restoreLoop_attempts_le env status env.maxTries 0
      env.initialBackoffUs false restoreCounters0 []
    simp only [restoreRecordWrite]
    omega
  · intro h0
    simp [restoreRecordWrite, hm, restoreLoop, h0]
  · intro h0
    simp [restoreRecordWrite, hm, restoreLoop, h0]
  · intro h0
    simp [restoreRecordWrite, hm, restoreLoop, h0, restoreCounters0]
  · intro h0
    simp [restoreRecordWrite, hm, restoreLoop, h0, restoreCounters0]
  · intro h0
    simp [restoreRecordWrite, hm, restoreLoop, h0, restoreCounters0]
  · intro h0
    simp [restoreRecordWrite, hm, restoreLoop, h0, restoreCounters0]
  · intro hov
    simp only [restoreRecordWrite, hm]
    rw [restoreLoop_overload env status hov m 0 env.initialBackoffUs
      restoreCounters0 []]
    simp [restoreCounters0]
  · intro hot
    simp only [restoreRecordWrite, hm]
    rw [restoreLoop_other env status hot m 0 env.initialBackoffUs
      restoreCounters0 []]
    simp

/-- C9 counterexample: under the frozen wording a record-too-big error —
which is neither fatal-class nor generation-conflict nor already-exists —
would be retried up to the maximum attempt count.  In the code it is
counted once and the loop breaks after a single attempt (setting the stop
flag because ignore-record-errors is off), even though four more attempts
were allowed. -/
theorem c9_counterexample :
    restoreRecordWrite ⟨5, 7, false⟩ (fun _ => AsStatus.errRecordTooBig) =
      ({ restoreCounters0 with ignored := 1 }, true, [], 1) ∧
    (1 : Nat) < 5 := by
  decide

/-- C9 witness: the amended theorem instantiated at a persistent
device-overload status with three allowed attempts and an initial backoff
of seven microseconds: three attempts are made, the two sleeps double
from the initial backoff, and the stop flag ends set. -/
theorem c9_retry_loop_discipline_witness :
    restoreRecordWrite ⟨3, 7, false⟩ (fun _ => AsStatus.errDeviceOverload) =
      ({ restoreCounters0 with backoffCount := 2 }, true, [7, 14], 3) := by
  have h := (c9_retry_loop_discipline ⟨3, 7, false⟩
    (fun _ => AsStatus.errDeviceOverload) (by decide)).2.2.2.2.2.2.2.1
    (fun i => rfl)
  rw [h]
  decide

/-- C1: duplicate-key handling.  The claim is **wrong on two points**.
First, `nf_map_dupkey` is never assigned anywhere in `backup.c`: no
classification outcome ever sets it, so "sets mapHasDuplicateKey = true"
fails.  Second, for a map declaring itself ordered via an extension
header, the duplicate-key scan runs only after an order defect, and a
duplicate pair at the *final* key comparison is classified
unfixable-corrupt (the remainder skip of zero values reads as failure)
rather than unfixable-duplicate.  What does hold, proved here: on the
unordered path, when the entry scan succeeds and the pairwise
duplicate-key scan over the content reports a duplicate, classification
returns not-fixable with `cannot_fix` and `cf_dupkey` each incremented
and `need_log` set, while `nf_map_dupkey` keeps its entry value. -/
theorem c1_duplicate_key_check_unordered (n sz : Nat) (tail : List Token)
    (cf : CdtFix) (st : CdtStats) (mp2 : MsgpackIn)
    (hsz : 1 ≤ sz) (hn : n ≠ 0)
    (hext : msgpack_peek_is_ext
      ⟨(Token.mapHdr n :: tail).take sz, 1, false⟩ = false)
    (hscan : mapUnordScanFast ⟨(Token.mapHdr n :: tail).take sz, 1, false⟩
      { cf with ele_count := n, contents := 1 } st n = ScanRes.ok mp2)
    (hdup : cdt_map_dup_key_check n
      (mp2.slice 1 (1 + (mp2.offset - 1))) = true) :
    ∃ cf', cdt_map_need_fix (Token.mapHdr n :: tail) sz cf st false =
      (false, cf', stDup st) ∧ cf'.need_log = true ∧
      cf'.nf_map_dupkey = cf.nf_map_dupkey := by
  obtain ⟨sz', rfl⟩ : ∃ sz', sz = sz' + 1 := ⟨sz - 1, by omega⟩
  have hcnt : msgpack_get_map_ele_count
      ⟨(Token.mapHdr n :: tail).take (sz' + 1), 0, false⟩ =
      some (⟨(Token.mapHdr n :: tail).take (sz' + 1), 1, false⟩, n) := by
    simp [msgpack_get_map_ele_count, MsgpackIn.rem]
  simp only [cdt_map_need_fix]
  rw [hcnt]
  dsimp only
  rw [if_neg hn, hext]
  rw [if_neg (by simp : ¬(false = true))]
  rw [if_neg (by simp : ¬(false = true))]
  rw [hscan]
  dsimp only [scanCont]
  rw [if_pos hdup]
  exact ⟨_, rfl, rfl, rfl⟩

/-- C1 counterexample: a map that declares itself ordered via an extension
header and holds two entries with the equal key `1`.  The frozen claim
demands `nf_map_dupkey = true` and a duplicate-key classification; the
code leaves `nf_map_dupkey` false, never touches `cf_dupkey`, and
classifies the bin unfixable-corrupt instead, because the duplicate sits
at the final key comparison where the remainder skip of zero values reads
as a parse failure. -/
theorem c1_duplicate_key_counterexample :
    (cdt_map_need_fix [Token.mapHdr 3, Token.ext 0 0, Token.nil, Token.int 1,
        Token.int 9, Token.int 1, Token.int 8] 7 cdtFix0 cdtStats0
        false).2.1.nf_map_dupkey = false ∧
    (cdt_map_need_fix [Token.mapHdr 3, Token.ext 0 0, Token.nil, Token.int 1,
        Token.int 9, Token.int 1, Token.int 8] 7 cdtFix0 cdtStats0
        false).2.2.cf_dupkey = 0 ∧
    (cdt_map_need_fix [Token.mapHdr 3, Token.ext 0 0, Token.nil, Token.int 1,
        Token.int 9, Token.int 1, Token.int 8] 7 cdtFix0 cdtStats0
        false).2.2.cf_corrupt = 1 ∧
    (cdt_map_need_fix [Token.mapHdr 3, Token.ext 0 0, Token.nil, Token.int 1,
        Token.int 9, Token.int 1, Token.int 8] 7 cdtFix0 cdtStats0
        false).2.2.cannot_fix = 1 := by
  decide

/-- C1 witness: the amended theorem applied to an unordered two-entry map
with the duplicated key `1`. -/
theorem c1_duplicate_key_check_unordered_witness :
    ∃ cf', cdt_map_need_fix [Token.mapHdr 2, Token.int 1, Token.int 9,
        Token.int 1, Token.int 8] 5 cdtFix0 cdtStats0 false =
      (false, cf', stDup cdtStats0) ∧ cf'.need_log = true ∧
      cf'.nf_map_dupkey = cdtFix0.nf_map_dupkey :=
  c1_duplicate_key_check_unordered 2 5
    [Token.int 1, Token.int 9, Token.int 1, Token.int 8] cdtFix0 cdtStats0
    ⟨[Token.mapHdr 2, Token.int 1, Token.int 9, Token.int 1, Token.int 8],
      5, false⟩
    (by decide) (by decide) (by decide) (by decide) (by decide)

/-- C4: acceptance of consecutive-element order during the ordered walks.
The list side is as claimed: a step is accepted (the walk moves to the
next pair) exactly when the comparator returns Less or Equal, and a
defective step - when the remainder skip succeeds and no non-storage
value was seen - sets `nf_list_order`.  The map side accepts a step only
for a strict Less, but the claim's "the first non-Less comparison marks
`mapOutOfOrder`" is **wrong at the final pair**: there the remainder skip
covers zero values, reads as a parse failure, and the bin is classified
unfixable-corrupt with `nf_map_order` left clear (see the counterexample
theorem).  Part four proves the amended marking: a non-Less comparison
with at least one later pair and a successful remainder skip sets
`nf_map_order`. -/
theorem c4_order_acceptance :
    (∀ (mpPrev mp : MsgpackIn) (sz : Nat) (cf : CdtFix) (st : CdtStats)
      (cmk : Bool) (k : Nat),
      ((msgpack_cmp mpPrev mp).2.2 = CmpRes.less ∨
       (msgpack_cmp mpPrev mp).2.2 = CmpRes.equal) →
      ¬(cmk = true ∧ check_map_keys_internal
          ((msgpack_cmp mpPrev mp).2.1.slice mp.offset
            (msgpack_cmp mpPrev mp).2.1.offset) = none) →
      listOrdLoop mpPrev mp sz cf st cmk (k + 1) =
        listOrdLoop (msgpack_cmp mpPrev mp).1 (msgpack_cmp mpPrev mp).2.1
          sz cf st cmk k) ∧
    (∀ (mpPrev mp : MsgpackIn) (sz : Nat) (cf : CdtFix) (st : CdtStats)
      (cmk : Bool) (k : Nat),
      (msgpack_cmp mpPrev mp).2.2 ≠ CmpRes.less ∧
        (msgpack_cmp mpPrev mp).2.2 ≠ CmpRes.equal →
      (msgpack_cmp mpPrev mp).2.1.hasNonstorage = false →
      ¬(k ≠ 0 ∧
        ((msgpack_sz_rep (msgpack_cmp mpPrev mp).2.1 k).2 = 0 ∨
         (msgpack_sz_rep (msgpack_cmp mpPrev mp).2.1 k).1.hasNonstorage = true)) →
      (listOrdLoop mpPrev mp sz cf st cmk (k + 1)).2.1.nf_list_order = true) ∧
    (∀ (mpPrev mp : MsgpackIn) (sz : Nat) (cf : CdtFix) (st : CdtStats)
      (cmk : Bool) (eleCount k : Nat),
      (msgpack_cmp mpPrev mp).2.2 = CmpRes.less →
      ¬(cmk = true ∧ map_is_key
          ((msgpack_cmp mpPrev mp).2.1.slice mp.offset
            (msgpack_cmp mpPrev mp).2.1.offset) = false) →
      (msgpack_sz (msgpack_cmp mpPrev mp).1).2 ≠ 0 →
      ¬((msgpack_sz (msgpack_cmp mpPrev mp).2.1).2 = 0 ∨
        (msgpack_sz (msgpack_cmp mpPrev mp).2.1).1.hasNonstorage = true) →
      ¬(cmk = true ∧ check_map_keys_internal
          ((msgpack_sz (msgpack_cmp mpPrev mp).2.1).1.slice
            (msgpack_cmp mpPrev mp).2.1.offset
            (msgpack_sz (msgpack_cmp mpPrev mp).2.1).1.offset) = none) →
      mapOrdLoop mpPrev mp sz cf st cmk eleCount (k + 1) =
        mapOrdLoop (msgpack_sz (msgpack_cmp mpPrev mp).1).1
          (msgpack_sz (msgpack_cmp mpPrev mp).2.1).1 sz cf st cmk eleCount k) ∧
    (∀ (mpPrev mp : MsgpackIn) (sz : Nat) (cf : CdtFix) (st : CdtStats)
      (cmk : Bool) (eleCount k : Nat),
      (msgpack_cmp mpPrev mp).2.2 ≠ CmpRes.less →
      ¬(cmk = true ∧ map_is_key
          ((msgpack_cmp mpPrev mp).2.1.slice mp.offset
            (msgpack_cmp mpPrev mp).2.1.offset) = false) →
      (msgpack_sz (msgpack_cmp mpPrev mp).1).2 ≠ 0 →
      ¬((msgpack_sz (msgpack_cmp mpPrev mp).2.1).2 = 0 ∨
        (msgpack_sz (msgpack_cmp mpPrev mp).2.1).1.hasNonstorage = true) →
      ¬((msgpack_sz_rep (msgpack_sz (msgpack_cmp mpPrev mp).2.1).1
          (2 * k)).2 = 0 ∨
        (msgpack_sz_rep (msgpack_sz (msgpack_cmp mpPrev mp).2.1).1
          (2 * k)).1.hasNonstorage = true) →
      (mapOrdLoop mpPrev mp sz cf st cmk eleCount (k + 1)).2.1.nf_map_order =
        true) := by
  refine ⟨?_, ?_, ?_, ?_⟩
  · intro mpPrev mp sz cf st cmk k hle hk1
    simp only [listOrdLoop]
    rw [if_neg (by rcases hle with h | h <;> simp [h])]
    rw [if_neg hk1]
  · intro mpPrev mp sz cf st cmk k hd hns hsk
    simp only [listOrdLoop]
    rw [if_pos hd]
    rw [if_neg (by simp [hns])]
    rw [if_neg hsk]
    split_ifs <;> rfl
  · intro mpPrev mp sz cf st cmk ec k hcmp hk1 hrp hrv hk2
    simp only [mapOrdLoop]
    rw [if_neg hk1, if_neg hrp, if_neg hrv]
    rw [if_neg (by simp [hcmp])]
    rw [if_neg hk2]
  · intro mpPrev mp sz cf st cmk ec k hcmp hk1 hrp hrv hrr
    simp only [mapOrdLoop]
    rw [if_neg hk1, if_neg hrp, if_neg hrv]
    rw [if_pos hcmp]
    simp only [mapOrdDefect]
    rw [if_neg (by intro hc; exact hrv (Or.inr hc))]
    rw [if_neg hrr]
    split_ifs <;> rfl

/-- C4 counterexample: a map declaring itself ordered whose two real keys
compare Greater (`2` before `1`) - a non-Less verdict between consecutive
keys.  The frozen claim demands that this first non-Less comparison mark
`mapOutOfOrder`; because the defect sits at the final key comparison, the
code instead classifies the bin unfixable-corrupt and leaves
`nf_map_order` clear. -/
theorem c4_order_acceptance_counterexample :
    cmpHead [Token.int 2] [Token.int 1] = CmpRes.greater ∧
    (cdt_map_need_fix [Token.mapHdr 3, Token.ext 0 0, Token.nil, Token.int 2,
        Token.int 9, Token.int 1, Token.int 8] 7 cdtFix0 cdtStats0
        false).2.1.nf_map_order = false ∧
    (cdt_map_need_fix [Token.mapHdr 3, Token.ext 0 0, Token.nil, Token.int 2,
        Token.int 9, Token.int 1, Token.int 8] 7 cdtFix0 cdtStats0
        false).2.2.cf_corrupt = 1 ∧
    (cdt_map_need_fix [Token.mapHdr 3, Token.ext 0 0, Token.nil, Token.int 2,
        Token.int 9, Token.int 1, Token.int 8] 7 cdtFix0 cdtStats0
        false).2.2.cannot_fix = 1 := by
  decide

/-- C4 witness: the four parts applied to concrete walks - an in-order
list step, an out-of-order list step, an in-order map key step, and an
out-of-order map key step one pair before the end. -/
theorem c4_order_acceptance_witness :
    listOrdLoop ⟨[Token.int 1, Token.int 2], 0, false⟩
        ⟨[Token.int 1, Token.int 2], 1, false⟩ 2 cdtFix0 cdtStats0 false 1 =
      listOrdLoop
        (msgpack_cmp ⟨[Token.int 1, Token.int 2], 0, false⟩
          ⟨[Token.int 1, Token.int 2], 1, false⟩).1
        (msgpack_cmp ⟨[Token.int 1, Token.int 2], 0, false⟩
          ⟨[Token.int 1, Token.int 2], 1, false⟩).2.1
        2 cdtFix0 cdtStats0 false 0 ∧
    (listOrdLoop ⟨[Token.int 2, Token.int 1], 0, false⟩
        ⟨[Token.int 2, Token.int 1], 1, false⟩ 2 cdtFix0 cdtStats0
        false 1).2.1.nf_list_order = true ∧
    mapOrdLoop ⟨[Token.int 1, Token.int 9, Token.int 2, Token.int 8], 0, false⟩
        ⟨[Token.int 1, Token.int 9, Token.int 2, Token.int 8], 2, false⟩
        4 cdtFix0 cdtStats0 false 2 1 =
      mapOrdLoop
        (msgpack_sz (msgpack_cmp
          ⟨[Token.int 1, Token.int 9, Token.int 2, Token.int 8], 0, false⟩
          ⟨[Token.int 1, Token.int 9, Token.int 2, Token.int 8], 2,
            false⟩).1).1
        (msgpack_sz (msgpack_cmp
          ⟨[Token.int 1, Token.int 9, Token.int 2, Token.int 8], 0, false⟩
          ⟨[Token.int 1, Token.int 9, Token.int 2, Token.int 8], 2,
            false⟩).2.1).1
        4 cdtFix0 cdtStats0 false 2 0 ∧
    (mapOrdLoop
        ⟨[Token.int 2, Token.int 9, Token.int 1, Token.int 8, Token.int 5,
          Token.int 7], 0, false⟩
        ⟨[Token.int 2, Token.int 9, Token.int 1, Token.int 8, Token.int 5,
          Token.int 7], 2, false⟩
        6 cdtFix0 cdtStats0 false 3 2).2.1.nf_map_order = true := by
  refine ⟨?_, ?_, ?_, ?_⟩
  · exact c4_order_acceptance.1 _ _ 2 cdtFix0 cdtStats0 false 0
      (by decide) (by decide)
  · exact c4_order_acceptance.2.1 _ _ 2 cdtFix0 cdtStats0 false 0
      (by decide) (by decide) (by decide)
  · exact c4_order_acceptance.2.2.1 _ _ 4 cdtFix0 cdtStats0 false 2 0
      (by decide) (by decide) (by decide) (by decide) (by decide)
  · exact c4_order_acceptance.2.2.2 _ _ 6 cdtFix0 cdtStats0 false 3 1
      (by decide) (by decide) (by decide) (by decide) (by decide)

lemma listOrdLoop_clean (B : List Token) (sz : Nat) :
    ∀ (k : Nat) (po co c1 ck : Nat) (cf : CdtFix) (st : CdtStats),
      listChainOk (B.drop po) k = true →
      skipVals (B.drop po) 1 = some (c1, false) →
      co = po + c1 →
      skipVals (B.drop co) k = some (ck, false) →
      listOrdLoop ⟨B, po, false⟩ ⟨B, co, false⟩ sz cf st false k =
        cdt_check_sz ⟨B, co + ck, false⟩ sz
          { cf with content_sz := co + ck - cf.contents } st := by
  intro k
  induction k with
  | zero =>
    intro po co c1 ck cf st hchain hprev hco hrem
    rw [skipVals_zero] at hrem
    have hck : ck = 0 := by
      have := congrArg (fun o => o.map Prod.fst) hrem
      simpa using this.symm
    subst hck
    simp [listOrdLoop]
  | succ k ih =>
    intro po co c1 ck cf st hchain hprev hco hrem
    rw [skipVals_succ] at hrem
    rcases h1 : skipVals (B.drop co) 1 with _ | ⟨c2, ns2⟩ <;> rw [h1] at hrem
    · simp at hrem
    · dsimp only at hrem
      rcases h2 : skipVals ((B.drop co).drop c2) k with _ | ⟨c3, ns3⟩ <;>
        rw [h2] at hrem
      · simp at hrem
      · dsimp only at hrem
        have hck : ck = c2 + c3 ∧ ns2 = false ∧ ns3 = false := by
          have h := Option.some.inj hrem
          refine ⟨(congrArg Prod.fst h).symm, ?_, ?_⟩
          · have := congrArg Prod.snd h
            dsimp at this
            cases ns2 <;> simp_all
          · have := congrArg Prod.snd h
            dsimp at this
            cases ns3 <;> simp_all
        obtain ⟨hckv, hns2, hns3⟩ := hck
        subst hns2; subst hns3
        have hdropco : (B.drop po).drop c1 = B.drop co := by
          rw [List.drop_drop]
          congr 1
          omega
        have hdropc2 : (B.drop co).drop c2 = B.drop (co + c2) := by
          rw [List.drop_drop]
        simp only [listChainOk] at hchain
        rw [hprev] at hchain
        dsimp only at hchain
        rw [hdropco] at hchain
        have hcmp : msgpack_cmp ⟨B, po, false⟩ ⟨B, co, false⟩ =
            (⟨B, po + c1, false⟩, ⟨B, co + c2, false⟩,
             cmpHead (B.drop po) (B.drop co)) := by
          simp [msgpack_cmp, MsgpackIn.rem_mk, hprev, h1]
        rcases hv : cmpHead (B.drop po) (B.drop co) with _ | _ | _ | _ | _ <;>
          rw [hv] at hchain <;>
          first
            | (exfalso; exact Bool.noConfusion hchain)
            | (simp only [listOrdLoop]
               rw [hcmp]
               dsimp only
               rw [hv]
               rw [if_neg (by simp)]
               rw [if_neg (by simp : ¬((false = true) ∧
                 check_map_keys_internal
                   ((MsgpackIn.mk B (co + c2) false).slice
                     ((MsgpackIn.mk B co false).offset)
                     ((MsgpackIn.mk B (co + c2) false).offset)) = none))]
               rw [← hco]
               have hres := ih co (co + c2) c2 c3 cf st hchain h1 rfl
                 (by rw [← hdropc2]; exact h2)
               rw [hres]
               have : co + ck = co + c2 + c3 := by omega
               rw [this])

lemma mapOrdLoop_clean (B : List Token) (sz : Nat) (ec : Nat) :
    ∀ (k : Nat) (po co kc1 vc1 ck : Nat) (cf : CdtFix) (st : CdtStats),
      mapKeysChainOk (B.drop po) k = true →
      skipVals (B.drop po) 1 = some (kc1, false) →
      skipVals (B.drop (po + kc1)) 1 = some (vc1, false) →
      co = po + kc1 + vc1 →
      skipVals (B.drop co) (2 * k) = some (ck, false) →
      mapOrdLoop ⟨B, po, false⟩ ⟨B, co, false⟩ sz cf st false ec k =
        cdt_check_sz ⟨B, co + ck, false⟩ sz
          { cf with content_sz := co + ck - cf.contents } st := by
  intro k
  induction k with
  | zero =>
    intro po co kc1 vc1 ck cf st hchain hkp hvp hco hrem
    rw [show 2 * 0 = 0 from rfl, skipVals_zero] at hrem
    have hck : ck = 0 := by
      have := congrArg (fun o => o.map Prod.fst) hrem
      simpa using this.symm
    subst hck
    simp [mapOrdLoop]
  | succ k ih =>
    intro po co kc1 vc1 ck cf st hchain hkp hvp hco hrem
    rw [show 2 * (k + 1) = 2 * k + 1 + 1 from by ring, skipVals_succ] at hrem
    rcases h1 : skipVals (B.drop co) 1 with _ | ⟨kc2, ns2⟩ <;> rw [h1] at hrem
    · simp at hrem
    · dsimp only at hrem
      rcases h2 : skipVals ((B.drop co).drop kc2) (2 * k + 1) with _ | ⟨cr, ns3⟩ <;>
        rw [h2] at hrem
      · simp at hrem
      · dsimp only at hrem
        have hsplit : ck = kc2 + cr ∧ ns2 = false ∧ ns3 = false := by
          have h := Option.some.inj hrem
          refine ⟨(congrArg Prod.fst h).symm, ?_, ?_⟩
          · have := congrArg Prod.snd h
            dsimp at this
            cases ns2 <;> simp_all
          · have := congrArg Prod.snd h
            dsimp at this
            cases ns3 <;> simp_all
        obtain ⟨hckv, hns2, hns3⟩ := hsplit
        subst hns2; subst hns3
        have hdropk2 : (B.drop co).drop kc2 = B.drop (co + kc2) := by
          rw [List.drop_drop]
        rw [hdropk2, skipVals_succ] at h2
        rcases h3 : skipVals (B.drop (co + kc2)) 1 with _ | ⟨vc2, ns4⟩ <;>
          rw [h3] at h2
        · simp at h2
        · dsimp only at h2
          rcases h4 : skipVals ((B.drop (co + kc2)).drop vc2) (2 * k) with
            _ | ⟨c3, ns5⟩ <;> rw [h4] at h2
          · simp at h2
          · dsimp only at h2
            have hsplit2 : cr = vc2 + c3 ∧ ns4 = false ∧ ns5 = false := by
              have h := Option.some.inj h2
              refine ⟨(congrArg Prod.fst h).symm, ?_, ?_⟩
              · have := congrArg Prod.snd h
                dsimp at this
                cases ns4 <;> simp_all
              · have := congrArg Prod.snd h
                dsimp at this
                cases ns5 <;> simp_all
            obtain ⟨hcrv, hns4, hns5⟩ := hsplit2
            subst hns4; subst hns5
            have hdropv2 : (B.drop (co + kc2)).drop vc2 = B.drop (co + kc2 + vc2) := by
              rw [List.drop_drop]
            rw [hdropv2] at h4
            have hp2 : skipVals (B.drop po) 2 = some (kc1 + vc1, false) := by
              rw [skipVals_succ, hkp]
              dsimp only
              rw [List.drop_drop, hvp]
              rfl
            have hdropco : (B.drop po).drop (kc1 + vc1) = B.drop co := by
              rw [List.drop_drop]
              congr 1
              omega
            simp only [mapKeysChainOk] at hchain
            rw [hp2] at hchain
            dsimp only at hchain
            rw [hdropco] at hchain
            have hcmp : msgpack_cmp ⟨B, po, false⟩ ⟨B, co, false⟩ =
                (⟨B, po + kc1, false⟩, ⟨B, co + kc2, false⟩,
                 cmpHead (B.drop po) (B.drop co)) := by
              simp [msgpack_cmp, MsgpackIn.rem_mk, hkp, h1]
            have hrp : msgpack_sz ⟨B, po + kc1, false⟩ =
                (⟨B, po + kc1 + vc1, false⟩, vc1) := by
              simp [msgpack_sz, msgpack_sz_rep, MsgpackIn.rem_mk, hvp]
            have hrv : msgpack_sz ⟨B, co + kc2, false⟩ =
                (⟨B, co + kc2 + vc2, false⟩, vc2) := by
              simp [msgpack_sz, msgpack_sz_rep, MsgpackIn.rem_mk, h3]
            have hvc1pos : 0 < vc1 := skipVals_pos _ 0 _ _ hvp
            have hvc2pos : 0 < vc2 := skipVals_pos _ 0 _ _ h3
            rcases hv : cmpHead (B.drop po) (B.drop co) with _ | _ | _ | _ | _ <;>
              rw [hv] at hchain <;>
              first
                | (exfalso; exact Bool.noConfusion hchain)
                | (simp only [mapOrdLoop]
                   rw [hcmp]
                   dsimp only
                   rw [if_neg (by simp)]
                   rw [hrp]
                   dsimp only
                   rw [if_neg (by omega : ¬(vc1 = 0))]
                   rw [hrv]
                   dsimp only
                   rw [if_neg (by
                     simp only [Bool.false_eq_true, or_false]
                     omega)]
                   rw [hv]
                   rw [if_neg (by simp)]
                   rw [if_neg (by simp : ¬((false = true) ∧
                     check_map_keys_internal
                       ((MsgpackIn.mk B (co + kc2 + vc2) false).slice
                         (co + kc2) (co + kc2 + vc2)) = none))]
                   rw [show po + kc1 + vc1 = co from by omega]
                   have hres := ih co (co + kc2 + vc2) kc2 vc2 c3 cf st
                     hchain h1 h3 rfl h4
                   rw [hres]
                   have : co + ck = co + kc2 + vc2 + c3 := by omega
                   rw [this])

/-- C8: a well-formed, correctly ordered list or map bin whose walk
consumes exactly the declared size is classified clean: the classifier
returns false (no fix requested) and the statistics - in particular
`need_fix` and every unfixable counter - are returned unchanged.  Four
cases: a list or map without the ordered extension header whose elements
parse and (for maps) carry no duplicate key, and a list or map declaring
itself ordered whose consecutive elements (keys) compare Less-or-Equal
(strictly Less). -/
theorem c8_clean_bin_frame :
    (∀ (n sz : Nat) (tail : List Token) (cf : CdtFix) (st : CdtStats)
      (c : Nat),
      1 ≤ sz → n ≠ 0 →
      msgpack_peek_is_ext
        ⟨(Token.listHdr n :: tail).take sz, 1, false⟩ = false →
      skipVals (((Token.listHdr n :: tail).take sz).drop 1) n =
        some (c, false) →
      1 + c = sz →
      ∃ cf', cdt_list_need_fix (Token.listHdr n :: tail) sz cf st false =
        (false, cf', st)) ∧
    (∀ (n sz a b : Nat) (tail : List Token) (cf : CdtFix) (st : CdtStats)
      (c1 ck : Nat),
      2 ≤ n → 2 ≤ sz →
      skipVals (((Token.listHdr n :: Token.ext a b :: tail).take sz).drop 2)
        1 = some (c1, false) →
      listChainOk (((Token.listHdr n :: Token.ext a b :: tail).take sz).drop 2)
        (n - 2) = true →
      skipVals (((Token.listHdr n :: Token.ext a b :: tail).take sz).drop
        (2 + c1)) (n - 2) = some (ck, false) →
      2 + c1 + ck = sz →
      ∃ cf', cdt_list_need_fix (Token.listHdr n :: Token.ext a b :: tail)
        sz cf st false = (false, cf', st)) ∧
    (∀ (n sz : Nat) (tail : List Token) (cf : CdtFix) (st : CdtStats)
      (c : Nat),
      1 ≤ sz → n ≠ 0 →
      msgpack_peek_is_ext
        ⟨(Token.mapHdr n :: tail).take sz, 1, false⟩ = false →
      skipVals (((Token.mapHdr n :: tail).take sz).drop 1) (2 * n) =
        some (c, false) →
      cdt_map_dup_key_check n
        (MsgpackIn.slice ⟨(Token.mapHdr n :: tail).take sz, 1 + c, false⟩
          1 (1 + (1 + c - 1))) = false →
      1 + c = sz →
      ∃ cf', cdt_map_need_fix (Token.mapHdr n :: tail) sz cf st false =
        (false, cf', st)) ∧
    (∀ (n sz a b : Nat) (tail : List Token) (cf : CdtFix) (st : CdtStats)
      (cv kc vc ck : Nat),
      2 ≤ n → 2 ≤ sz →
      skipVals (((Token.mapHdr n :: Token.ext a b :: tail).take sz).drop 2)
        1 = some (cv, false) →
      skipVals (((Token.mapHdr n :: Token.ext a b :: tail).take sz).drop
        (2 + cv)) 1 = some (kc, false) →
      skipVals (((Token.mapHdr n :: Token.ext a b :: tail).take sz).drop
        (2 + cv + kc)) 1 = some (vc, false) →
      mapKeysChainOk
        (((Token.mapHdr n :: Token.ext a b :: tail).take sz).drop (2 + cv))
        (n - 2) = true →
      skipVals (((Token.mapHdr n :: Token.ext a b :: tail).take sz).drop
        (2 + cv + kc + vc)) (2 * (n - 2)) = some (ck, false) →
      2 + cv + kc + vc + ck = sz →
      ∃ cf', cdt_map_need_fix (Token.mapHdr n :: Token.ext a b :: tail)
        sz cf st false = (false, cf', st)) := by
  refine ⟨?_, ?_, ?_, ?_⟩
  · intro n sz tail cf st c hsz hn hext hskip hsz2
    obtain ⟨sz', rfl⟩ : ∃ sz', sz = sz' + 1 := ⟨sz - 1, by omega⟩
    have hcnt : msgpack_get_list_ele_count
        ⟨(Token.listHdr n :: tail).take (sz' + 1), 0, false⟩ =
        some (⟨(Token.listHdr n :: tail).take (sz' + 1), 1, false⟩, n) := by
      simp [msgpack_get_list_ele_count, MsgpackIn.rem]
    have hpos : 0 < c := by
      obtain ⟨m, rfl⟩ : ∃ m, n = m + 1 := ⟨n - 1, by omega⟩
      exact skipVals_pos _ m _ _ hskip
    have hfast : ∀ (cfx : CdtFix) (stx : CdtStats),
        listUnordScanFast ⟨(Token.listHdr n :: tail).take (sz' + 1), 1, false⟩
          cfx stx n =
        ScanRes.ok ⟨(Token.listHdr n :: tail).take (sz' + 1), 1 + c, false⟩ := by
      intro cfx stx
      simp only [listUnordScanFast, msgpack_sz_rep, MsgpackIn.rem_mk]
      rw [hskip]
      dsimp only
      rw [if_neg (by
        simp only [Bool.false_eq_true, Bool.or_self, or_false]
        omega)]
      rfl
    simp only [cdt_list_need_fix]
    rw [hcnt]
    dsimp only
    rw [if_neg hn, hext]
    rw [if_neg (by simp : ¬(false = true))]
    rw [if_neg (by simp : ¬(false = true))]
    rw [hfast]
    dsimp only [scanCont]
    rw [show (1 : Nat) + c = sz' + 1 from hsz2]
    simp [cdt_check_sz]
  · intro n sz a b tail cf st c1 ck h2n h2sz hfirst hchain hrem hsz2
    obtain ⟨sz', rfl⟩ : ∃ sz', sz = sz' + 2 := ⟨sz - 2, by omega⟩
    have htake : (Token.listHdr n :: Token.ext a b :: tail).take (sz' + 2) =
        Token.listHdr n :: Token.ext a b :: tail.take sz' := by
      simp [List.take_succ_cons]
    have hcnt : msgpack_get_list_ele_count
        ⟨(Token.listHdr n :: Token.ext a b :: tail).take (sz' + 2), 0,
          false⟩ =
        some (⟨(Token.listHdr n :: Token.ext a b :: tail).take (sz' + 2), 1,
          false⟩, n) := by
      rw [htake]
      simp [msgpack_get_list_ele_count, MsgpackIn.rem]
    have hpeek : msgpack_peek_is_ext
        ⟨(Token.listHdr n :: Token.ext a b :: tail).take (sz' + 2), 1,
          false⟩ = true := by
      rw [htake]
      simp [msgpack_peek_is_ext, MsgpackIn.rem]
    have hget : msgpack_get_ext
        ⟨(Token.listHdr n :: Token.ext a b :: tail).take (sz' + 2), 1,
          false⟩ =
        some (⟨(Token.listHdr n :: Token.ext a b :: tail).take (sz' + 2), 2,
          false⟩, a, b) := by
      rw [htake]
      simp [msgpack_get_ext, MsgpackIn.rem]
    have hc1pos : 0 < c1 := skipVals_pos _ 0 _ _ hfirst
    simp only [cdt_list_need_fix]
    rw [hcnt]
    dsimp only
    rw [if_neg (by omega : ¬(n = 0)), hpeek]
    rw [if_pos rfl]
    rw [hget]
    dsimp only
    rw [if_neg (by omega : ¬(n - 1 = 0))]
    simp only [listOrderedRun, msgpack_sz_rep, MsgpackIn.rem_mk]
    rw [hfirst]
    dsimp only
    rw [if_neg (by
      simp only [Bool.false_eq_true, Bool.or_self, or_false]
      omega)]
    simp only [Bool.false_eq_true, false_and, if_false, Bool.or_self]
    rw [listOrdLoop_clean _ (sz' + 2) (n - 2) 2 (2 + c1) c1 ck _ _
      hchain hfirst rfl hrem]
    rw [show 2 + c1 + ck = sz' + 2 from hsz2]
    simp [cdt_check_sz]
  · intro n sz tail cf st c hsz hn hext hskip hdup hsz2
    obtain ⟨sz', rfl⟩ : ∃ sz', sz = sz' + 1 := ⟨sz - 1, by omega⟩
    have hcnt : msgpack_get_map_ele_count
        ⟨(Token.mapHdr n :: tail).take (sz' + 1), 0, false⟩ =
        some (⟨(Token.mapHdr n :: tail).take (sz' + 1), 1, false⟩, n) := by
      simp [msgpack_get_map_ele_count, MsgpackIn.rem]
    have hpos : 0 < c := by
      obtain ⟨m, hm⟩ : ∃ m, 2 * n = m + 1 := ⟨2 * n - 1, by omega⟩
      rw [hm] at hskip
      exact skipVals_pos _ m _ _ hskip
    have hfast : ∀ (cfx : CdtFix) (stx : CdtStats),
        mapUnordScanFast ⟨(Token.mapHdr n :: tail).take (sz' + 1), 1, false⟩
          cfx stx n =
        ScanRes.ok ⟨(Token.mapHdr n :: tail).take (sz' + 1), 1 + c, false⟩ := by
      intro cfx stx
      simp only [mapUnordScanFast, msgpack_sz_rep, MsgpackIn.rem_mk]
      rw [hskip]
      dsimp only
      rw [if_neg (by
        simp only [Bool.false_eq_true, Bool.or_self, or_false]
        omega)]
      rfl
    simp only [cdt_map_need_fix]
    rw [hcnt]
    dsimp only
    rw [if_neg hn, hext]
    rw [if_neg (by simp : ¬(false = true))]
    rw [if_neg (by simp : ¬(false = true))]
    rw [hfast]
    dsimp only [scanCont]
    rw [if_neg (by simp only [hdup]; simp)]
    rw [show (1 : Nat) + c = sz' + 1 from hsz2]
    simp [cdt_check_sz]
  · intro n sz a b tail cf st cv kc vc ck h2n h2sz hextval hk1 hv1 hchain
      hrem hsz2
    obtain ⟨sz', rfl⟩ : ∃ sz', sz = sz' + 2 := ⟨sz - 2, by omega⟩
    have htake : (Token.mapHdr n :: Token.ext a b :: tail).take (sz' + 2) =
        Token.mapHdr n :: Token.ext a b :: tail.take sz' := by
      simp [List.take_succ_cons]
    have hcnt : msgpack_get_map_ele_count
        ⟨(Token.mapHdr n :: Token.ext a b :: tail).take (sz' + 2), 0,
          false⟩ =
        some (⟨(Token.mapHdr n :: Token.ext a b :: tail).take (sz' + 2), 1,
          false⟩, n) := by
      rw [htake]
      simp [msgpack_get_map_ele_count, MsgpackIn.rem]
    have hpeek : msgpack_peek_is_ext
        ⟨(Token.mapHdr n :: Token.ext a b :: tail).take (sz' + 2), 1,
          false⟩ = true := by
      rw [htake]
      simp [msgpack_peek_is_ext, MsgpackIn.rem]
    have hget : msgpack_get_ext
        ⟨(Token.mapHdr n :: Token.ext a b :: tail).take (sz' + 2), 1,
          false⟩ =
        some (⟨(Token.mapHdr n :: Token.ext a b :: tail).take (sz' + 2), 2,
          false⟩, a, b) := by
      rw [htake]
      simp [msgpack_get_ext, MsgpackIn.rem]
    have hcvpos : 0 < cv := skipVals_pos _ 0 _ _ hextval
    have hkcpos : 0 < kc := skipVals_pos _ 0 _ _ hk1
    have hvcpos : 0 < vc := skipVals_pos _ 0 _ _ hv1
    have hrm : msgpack_sz
        ⟨(Token.mapHdr n :: Token.ext a b :: tail).take (sz' + 2), 2,
          false⟩ =
        (⟨(Token.mapHdr n :: Token.ext a b :: tail).take (sz' + 2), 2 + cv,
          false⟩, cv) := by
      simp only [msgpack_sz, msgpack_sz_rep, MsgpackIn.rem_mk]
      rw [hextval]
      rfl
    simp only [cdt_map_need_fix]
    rw [hcnt]
    dsimp only
    rw [if_neg (by omega : ¬(n = 0)), hpeek]
    rw [if_pos rfl]
    rw [hget]
    dsimp only
    rw [hrm]
    dsimp only
    rw [if_neg (by omega : ¬(cv = 0))]
    rw [if_neg (by omega : ¬(n - 1 = 0))]
    simp only [mapOrderedRun, msgpack_sz_rep, MsgpackIn.rem_mk]
    rw [hk1]
    dsimp only
    rw [if_neg (by
      simp only [Bool.false_eq_true, Bool.or_self, or_false]
      omega)]
    simp only [Bool.false_eq_true, false_and, if_false]
    simp only [MsgpackIn.rem_mk, Bool.or_self]
    rw [hv1]
    dsimp only
    rw [if_neg (by
      simp only [Bool.false_eq_true, Bool.or_self, or_false]
      omega)]
    simp only [Bool.false_eq_true, false_and, if_false, Bool.or_self]
    rw [mapOrdLoop_clean _ (sz' + 2) n (n - 2) (2 + cv) (2 + cv + kc + vc)
      kc vc ck _ _ hchain hk1 hv1 (by omega) hrem]
    rw [show 2 + cv + kc + vc + ck = sz' + 2 from hsz2]
    simp [cdt_check_sz]

/-- C8 witness: the four clean cases at concrete bins - an unordered
two-element list, an ordered three-element list, an unordered two-pair
map with distinct keys, and an ordered two-pair map with strictly
increasing keys; each is returned unclassified with the entry stats. -/
theorem c8_clean_bin_frame_witness :
    (∃ cf', cdt_list_need_fix [Token.listHdr 2, Token.int 1, Token.int 9] 3
      cdtFix0 cdtStats0 false = (false, cf', cdtStats0)) ∧
    (∃ cf', cdt_list_need_fix [Token.listHdr 4, Token.ext 0 0, Token.int 3,
      Token.int 5, Token.int 9] 5 cdtFix0 cdtStats0 false =
      (false, cf', cdtStats0)) ∧
    (∃ cf', cdt_map_need_fix [Token.mapHdr 2, Token.int 1, Token.int 9,
      Token.int 2, Token.int 8] 5 cdtFix0 cdtStats0 false =
      (false, cf', cdtStats0)) ∧
    (∃ cf', cdt_map_need_fix [Token.mapHdr 3, Token.ext 0 0, Token.nil,
      Token.int 1, Token.int 9, Token.int 2, Token.int 8] 7 cdtFix0
      cdtStats0 false = (false, cf', cdtStats0)) := by
  refine ⟨?_, ?_, ?_, ?_⟩
  · exact c8_clean_bin_frame.1 2 3 [Token.int 1, Token.int 9] cdtFix0
      cdtStats0 2 (by decide) (by decide) (by decide) (by decide) (by decide)
  · exact c8_clean_bin_frame.2.1 4 5 0 0
      [Token.int 3, Token.int 5, Token.int 9] cdtFix0 cdtStats0 1 2
      (by decide) (by decide) (by decide) (by decide) (by decide) (by decide)
  · exact c8_clean_bin_frame.2.2.1 2 5
      [Token.int 1, Token.int 9, Token.int 2, Token.int 8] cdtFix0 cdtStats0
      4 (by decide) (by decide) (by decide) (by decide) (by decide)
      (by decide)
  · exact c8_clean_bin_frame.2.2.2 3 7 0 0
      [Token.nil, Token.int 1, Token.int 9, Token.int 2, Token.int 8]
      cdtFix0 cdtStats0 1 1 1 2 (by decide) (by decide) (by decide)
      (by decide) (by decide) (by decide) (by decide) (by decide)
